import Mathlib

/-! Groupie Tracker: the request handlers of `server/handlers.go`.

A shallow embedding of the HTTP handlers of the `server` package
(`handlers.go`, `fetch.go`, `models.go`) together with the parts of the Go
standard library they call, followed by theorems about the handlers.

Conventions of the embedding:
* Go `int` values are `Int`; the only arithmetic the handlers perform on them
  (`id--` after `id > 0`) cannot overflow, and `strconv.ParseUint` carries its
  64-bit wrap-around explicitly.
* Go strings are `String`; byte-level library functions are written over the
  character list of a string.
* A handler receives the response writer and returns the writer it leaves
  behind; a Go run-time panic is the `Except.error` branch.
* Everything outside the process (remote API, template files, file system) is
  a field of `World`; the package-level variables `templates` and `artists`
  are the fields of `Globals`.
* `log.Println` output is not part of the response and is left out.
-/

namespace GroupieTracker

/-! ## Data model (`server/models.go`) -/

/-- The `Artist` record of `models.go`. -/
structure Artist where
  ID : Int := 0
  Image : String := ""
  Name : String := ""
  Members : List String := []
  CreationDate : Int := 0
  FirstAlbum : String := ""
  Locations : String := ""
  ConcertDates : String := ""
  Relations : String := ""
deriving DecidableEq, Repr

/-- The `Date` record of `models.go`. -/
structure Date where
  Dates : List String := []
deriving DecidableEq, Repr

/-- The `Loc` record of `models.go`. -/
structure Loc where
  Locations : List String := []
deriving DecidableEq, Repr

/-- The `Relation` record of `models.go`; the Go map is an association list. -/
structure Relation where
  DatesLocation : List (String × List String) := []
deriving DecidableEq, Repr

/-- The `TemplateData` view model of `models.go`; the defaults are Go's zero values. -/
structure TemplateData where
  Title : String := ""
  Artist : Artist := {}
  Data : List GroupieTracker.Artist := []
  Locations : Loc := {}
  Dates : Date := {}
  Concerts : Relation := {}
  Query : String := ""
  Results : List GroupieTracker.Artist := []
  Message : String := ""
  Status : Int := 0
deriving DecidableEq, Repr

/-! ## The response writer (`net/http/httptest.ResponseRecorder`) -/

/-- Response state as recorded by `httptest.ResponseRecorder`, the writer the
package's tests hand to the handlers. `sentHeader` is the header snapshot taken
when the status line is written. -/
structure ResponseWriter where
  Code : Int := 200
  HeaderMap : List (String × String) := []
  Body : String := ""
  wroteHeader : Bool := false
  sentHeader : List (String × String) := []
deriving DecidableEq, Repr

/-- The writer `httptest.NewRecorder()` returns. -/
def NewRecorder : ResponseWriter := {}

/-- The method `Header.Set`: replace the values stored under `key`. -/
def HeaderSet (h : List (String × String)) (key value : String) : List (String × String) :=
  (key, value) :: h.filter (fun kv => kv.1 != key)

/-- The method `WriteHeader(code)`: a no-op once the header is written; panics on a
code outside `100..999` (`checkWriteHeaderCode`); otherwise records the code. -/
def ResponseWriter.WriteHeader (w : ResponseWriter) (code : Int) : Except String ResponseWriter :=
  if w.wroteHeader then .ok w
  else if code < 100 ∨ code > 999 then .error "invalid WriteHeader code"
  else .ok { w with Code := code, wroteHeader := true, sentHeader := w.HeaderMap }

/-- The method `Write(buf)`: writes the header with status 200 if it is not written yet
(200 passes the range check, so this never panics), then appends to the body. -/
def ResponseWriter.Write (w : ResponseWriter) (buf : String) : ResponseWriter :=
  let w1 : ResponseWriter :=
    if w.wroteHeader then w
    else { w with Code := 200, wroteHeader := true, sentHeader := w.HeaderMap }
  { w1 with Body := w1.Body ++ buf }

/-- Decimal digits of a natural number, most significant first, with `fuel`
bounding the number of digits produced. -/
def decimalDigits : Nat → Nat → List Char
  | 0, _ => []
  | fuel + 1, n =>
    if n < 10 then [Char.ofNat (48 + n)]
    else decimalDigits fuel (n / 10) ++ [Char.ofNat (48 + n % 10)]

/-- The `%d` verb of `fmt.Sprintf` on an `int`. -/
def formatInt (c : Int) : String :=
  match c with
  | Int.ofNat n => String.mk (decimalDigits (n + 1) n)
  | Int.negSucc n => String.mk ('-' :: decimalDigits (n + 2) (n + 1))

/-- The call `http.Error(w, error, code)`: plain-text headers, the status, then the
message and a newline (`fmt.Fprintln`). -/
def httpError (w : ResponseWriter) (error : String) (code : Int) : Except String ResponseWriter :=
  let w1 : ResponseWriter :=
    { w with HeaderMap := HeaderSet (HeaderSet w.HeaderMap "Content-Type"
        "text/plain; charset=utf-8") "X-Content-Type-Options" "nosniff" }
  match w1.WriteHeader code with
  | .error e => .error e
  | .ok w2 => .ok (w2.Write (error ++ "\n"))

/-! ## Templates (`text/template`) -/

/-- A parsed template: executing it on a view model yields the sequence of
chunks it writes (each a `Write` call, possibly of zero bytes) and whether
execution stopped with an error; the chunks written before the error stay
written. -/
structure Template where
  execute : TemplateData → List String × Bool

/-- The methods `Execute` and `ExecuteTemplate`: perform the writes, report the error flag. -/
def Template.Execute (t : Template) (w : ResponseWriter) (data : TemplateData) :
    ResponseWriter × Bool :=
  ((t.execute data).1.foldl ResponseWriter.Write w, (t.execute data).2)

/-! ## Requests (`net/http.Request`, `net/url`) -/

/-- The parts of `url.URL` the handlers and `http.ServeFile` read: the path, the
raw query string, and the decoded query pairs `r.URL.Query()` yields from it,
in order of appearance. -/
structure URL where
  Path : String := "/"
  Query : List (String × String) := []
  RawQuery : String := ""
deriving DecidableEq, Repr

/-- The parts of `http.Request` the handlers and `http.ServeFile` read; `Header`
holds the request headers under their canonical names, in order. -/
structure Request where
  Method : String := "GET"
  URL : URL := {}
  Header : List (String × String) := []
deriving DecidableEq, Repr

/-- The method `url.Values.Get`: the first value stored under `key`, or `""`. -/
def ValuesGet (q : List (String × String)) (key : String) : String :=
  match q.find? (fun kv => kv.1 == key) with
  | some kv => kv.2
  | none => ""

/-! ## The world outside the process and the package globals -/

/-- Why `os.Open` failed, as `toHTTPError` distinguishes it. -/
inductive FileError where
  | notExist
  | permission
  | other
deriving DecidableEq, Repr

/-- What `os.Stat` reports about a path that exists. -/
structure FileInfo where
  IsDir : Bool
deriving DecidableEq, Repr

/-- Everything outside the process. -/
structure World where
  /-- The table `unicode.ToLower`, the simple lower-case mapping of a code point. -/
  unicodeToLower : Char → Char
  /-- Outcome of `fetchData(url, &target)` for a `Loc` target. -/
  fetchLoc : String → Except String Loc
  /-- Outcome of `fetchData(url, &target)` for a `Date` target. -/
  fetchDate : String → Except String Date
  /-- Outcome of `fetchData(url, &target)` for a `Relation` target. -/
  fetchRelation : String → Except String Relation
  /-- Outcome of `template.ParseFiles("templates/errors.html")`. -/
  errorsTemplate : Option Template
  /-- Outcome of `os.Stat`; `none` is an error. -/
  stat : String → Option FileInfo
  /-- Outcome of opening and reading a regular file. -/
  readFile : String → Except FileError String
  /-- The modification time of a file in `http.TimeFormat`; `none` for the zero time. -/
  lastModified : String → Option String
  /-- What `serveContent` of `net/http` goes on to do, after `Last-Modified` is
  set, in the cases the model does not spell out: a request with a conditional
  or `Range` header (the 304, 412, 206 and 416 answers) and a response whose
  Content-Type is still to be sniffed. The arguments are the request, the file
  name, the file content and the response so far. -/
  serveContentRest : Request → String → String → ResponseWriter → Except String ResponseWriter

/-- The package-level variables of `fetch.go`. -/
structure Globals where
  templates : String → Option Template
  artists : List Artist

/-! ## `strconv.Atoi` -/

/-- The two errors of `strconv`: `ErrSyntax` and `ErrRange`. -/
inductive NumError where
  | errSyntax
  | errRange
deriving DecidableEq, Repr

/-- The digit loop of `strconv.ParseUint(s, 10, 64)`: `n` is the value read so
far; a byte that is not a decimal digit is a syntax error; `cutoff` is
`maxUint64/10 + 1` and the additions wrap at 64 bits as in Go. -/
def parseUintLoop : List Char → Nat → Nat × Option NumError
  | [], n => (n, none)
  | c :: cs, n =>
    if 48 ≤ c.toNat ∧ c.toNat ≤ 57 then
      let d := c.toNat - 48
      if n ≥ (2 ^ 64 - 1) / 10 + 1 then (2 ^ 64 - 1, some NumError.errRange)
      else
        let n10 := n * 10 % 2 ^ 64
        let n1 := (n10 + d) % 2 ^ 64
        if n1 < n10 ∨ n1 > 2 ^ 64 - 1 then (2 ^ 64 - 1, some NumError.errRange)
        else parseUintLoop cs n1
    else (0, some NumError.errSyntax)

/-- The function `strconv.ParseUint(s, 10, 64)`. -/
def ParseUint (s : List Char) : Nat × Option NumError :=
  if s = [] then (0, some NumError.errSyntax) else parseUintLoop s 0

/-- The function `strconv.ParseInt(s, 10, 0)` on a 64-bit platform. -/
def ParseInt (s : List Char) : Int × Option NumError :=
  match s with
  | [] => (0, some NumError.errSyntax)
  | c :: cs =>
    let neg := c = '-'
    let digits := if c = '+' ∨ c = '-' then cs else c :: cs
    match ParseUint digits with
    | (_, some NumError.errSyntax) => (0, some NumError.errSyntax)
    | (un, _) =>
      if ¬ neg ∧ un ≥ 2 ^ 63 then ((2 : Int) ^ 63 - 1, some NumError.errRange)
      else if neg ∧ un > 2 ^ 63 then (-(2 : Int) ^ 63, some NumError.errRange)
      else (if neg then -(un : Int) else (un : Int), none)

/-- The function `strconv.Atoi`: its fast path for short inputs computes what
`ParseInt(s, 10, 0)` computes, so the model is the latter. -/
def Atoi (s : String) : Int × Option NumError :=
  ParseInt s.data

/-! ## `strings` -/

/-- The function `strings.HasPrefix` over character lists. -/
def hasPrefixChars : List Char → List Char → Bool
  | _, [] => true
  | [], _ :: _ => false
  | c :: s, d :: p => c == d && hasPrefixChars s p

/-- The function `strings.Contains` over character lists: `substr` occurs at some offset. -/
def containsChars : List Char → List Char → Bool
  | [], p => hasPrefixChars [] p
  | c :: s, p => hasPrefixChars (c :: s) p || containsChars s p

/-- The function `strings.Contains`. -/
def Contains (s substr : String) : Bool :=
  containsChars s.data substr.data

/-- The function `strings.ToLower`: every code point mapped through `unicode.ToLower`. -/
def ToLower (world : World) (s : String) : String :=
  String.mk (s.data.map world.unicodeToLower)

/-- The function `strings.HasSuffix` over character lists. -/
def hasSuffixChars (s suffix : List Char) : Bool :=
  hasPrefixChars s.reverse suffix.reverse

/-- The function `strings.TrimPrefix` over character lists. -/
def trimPrefixChars (s p : List Char) : List Char :=
  if hasPrefixChars s p then s.drop p.length else s

/-! ## `path` and `path/filepath` -/

/-- Split a character list at every `/`. -/
def splitSlash : List Char → List (List Char)
  | [] => [[]]
  | c :: cs =>
    match splitSlash cs with
    | [] => [[]]
    | h :: t => if c = '/' then [] :: h :: t else (c :: h) :: t

/-- One step of `path.Clean` over the path elements: `out` is the stack of
elements kept so far, innermost first. Empty elements and `.` are dropped; `..`
removes the element before it when there is one that is not itself `..`, is
dropped at the root, and is kept otherwise. -/
def cleanStep (rooted : Bool) (out : List (List Char)) (elem : List Char) : List (List Char) :=
  if elem = [] ∨ elem = ['.'] then out
  else if elem = ['.', '.'] then
    match out with
    | top :: rest => if top = ['.', '.'] then elem :: out else rest
    | [] => if rooted then [] else [elem]
  else elem :: out

/-- Join path elements with `/`. -/
def joinSlash : List (List Char) → List Char
  | [] => []
  | [e] => e
  | e :: es => e ++ '/' :: joinSlash es

/-- The function `path.Clean`. -/
def pathClean (p : List Char) : List Char :=
  match p with
  | [] => ['.']
  | c :: _ =>
    let rooted : Bool := c = '/'
    let out := ((splitSlash p).foldl (cleanStep rooted) []).reverse
    let body := joinSlash out
    if rooted then '/' :: body
    else if body = [] then ['.'] else body

/-- The call `path.Join("static", elem)`: the non-empty elements joined with `/`, cleaned. -/
def pathJoinStatic (elem : List Char) : List Char :=
  if elem = [] then pathClean "static".data
  else pathClean ("static".data ++ '/' :: elem)

/-- Scan of `filepath.Ext` from the end of the path: `rev` is what is left,
reversed, and `acc` the characters already passed. -/
def extScan : List Char → List Char → List Char
  | [], _ => []
  | c :: rev, acc =>
    if c = '/' then []
    else if c = '.' then '.' :: acc
    else extScan rev (c :: acc)

/-- The function `filepath.Ext`: the suffix beginning at the final dot of the final element. -/
def filepathExt (p : String) : String :=
  String.mk (extScan p.data.reverse [])

/-- The check `containsDotDot` of `net/http`: some element between slashes or backslashes is `..`. -/
def containsDotDot (v : String) : Bool :=
  ((v.data.map (fun c => if c = '\\' then '/' else c)) |> splitSlash).any
    (fun e => e == ['.', '.'])

/-! ## The fetch wrappers (`server/fetch.go`) -/

/-- The wrapper `FetchLocations`: `fetchData` into a `Loc`. -/
def FetchLocations (world : World) (url : String) : Except String Loc :=
  world.fetchLoc url

/-- The wrapper `FetchRelation`: `fetchData` into a `Relation`. -/
def FetchRelation (world : World) (url : String) : Except String Relation :=
  world.fetchRelation url

/-- The wrapper `FetchDates`: `fetchData` into a `Date`. -/
def FetchDates (world : World) (url : String) : Except String Date :=
  world.fetchDate url

/-! ## The handlers (`server/handlers.go`) -/

/-- The `switch code` of `ErrorPage` that picks the phrase shown for a status code. -/
def ErrorPage.message (code : Int) : String :=
  if code = 404 then "Not Found"
  else if code = 400 then "Bad Request"
  else if code = 405 then "Method Not Allowed"
  else if code = 403 then "Forbidden"
  else "Internal Server Error"

/-- The view model `ErrorPage` hands to the error template. -/
def ErrorPage.data (code : Int) : TemplateData :=
  { Title := "Error", Status := code, Message := ErrorPage.message code }

/-- The text `fmt.Sprintf("%d - %s", code, message)` of the plain-text fallback. -/
def ErrorPage.plainText (code : Int) : String :=
  formatInt code ++ " - " ++ ErrorPage.message code

/-- The handler helper `ErrorPage`: set the status, then render `templates/errors.html`;
when the template cannot be parsed or its execution fails, `http.Error` with
`"%d - %s"`. -/
def ErrorPage (world : World) (w : ResponseWriter) (code : Int) : Except String ResponseWriter :=
  match w.WriteHeader code with
  | .error e => .error e
  | .ok w1 =>
    match world.errorsTemplate with
    | none => httpError w1 (ErrorPage.plainText code) code
    | some tmpl =>
      if (tmpl.Execute w1 (ErrorPage.data code)).2 then
        httpError (tmpl.Execute w1 (ErrorPage.data code)).1 (ErrorPage.plainText code) code
      else .ok (tmpl.Execute w1 (ErrorPage.data code)).1

/-- The helper `renderTemplate`: look the template up in the global map, 404 when
it is absent, execute it, 500 when execution fails. -/
def renderTemplate (world : World) (g : Globals) (w : ResponseWriter) (tmpl : String)
    (data : TemplateData) : Except String ResponseWriter :=
  match g.templates tmpl with
  | none => ErrorPage world w 404
  | some t =>
    if (t.Execute w data).2 then ErrorPage world (t.Execute w data).1 500
    else .ok (t.Execute w data).1

/-- The helper `checkMethodAndPath`: the returned flag and the writer left behind. -/
def checkMethodAndPath (world : World) (w : ResponseWriter) (r : Request)
    (method path : String) : Except String (Bool × ResponseWriter) :=
  if r.Method ≠ method then
    match ErrorPage world w 405 with
    | .error e => .error e
    | .ok w1 => .ok (false, w1)
  else if r.URL.Path ≠ path then
    match ErrorPage world w 404 with
    | .error e => .error e
    | .ok w1 => .ok (false, w1)
  else .ok (true, w)

/-- The handler `MainPage`. -/
def MainPage (world : World) (g : Globals) (w : ResponseWriter) (r : Request) :
    Except String ResponseWriter :=
  match checkMethodAndPath world w r "GET" "/" with
  | .error e => .error e
  | .ok (false, w1) => .ok w1
  | .ok (true, w1) =>
    renderTemplate world g w1 "index.html"
      { Title := "Groupie Trackers - Artists", Data := g.artists }

/-- Go slice indexing `xs[i]`: a run-time panic when `i` is out of range. -/
def sliceIndex {α : Type} (xs : List α) (i : Int) : Except String α :=
  if i < 0 then .error "index out of range"
  else
    match xs[i.toNat]? with
    | some x => .ok x
    | none => .error "index out of range"

/-- The handler `InfoAboutArtist`. -/
def InfoAboutArtist (world : World) (g : Globals) (w : ResponseWriter) (r : Request) :
    Except String ResponseWriter :=
  match checkMethodAndPath world w r "GET" "/artists/" with
  | .error e => .error e
  | .ok (false, w1) => .ok w1
  | .ok (true, w1) =>
    let parsed := Atoi (ValuesGet r.URL.Query "id")
    if parsed.1 ≤ 0 ∨ parsed.1 > (g.artists.length : Int) ∨ parsed.2 ≠ none then
      ErrorPage world w1 400
    else
      let id := parsed.1 - 1
      match sliceIndex g.artists id with
      | .error e => .error e
      | .ok a1 =>
        match FetchLocations world a1.Locations with
        | .error _ => ErrorPage world w1 500
        | .ok locations =>
          match sliceIndex g.artists id with
          | .error e => .error e
          | .ok a2 =>
            match FetchDates world a2.ConcertDates with
            | .error _ => ErrorPage world w1 500
            | .ok dates =>
              match sliceIndex g.artists id with
              | .error e => .error e
              | .ok a3 =>
                match FetchRelation world a3.Relations with
                | .error _ => ErrorPage world w1 500
                | .ok rel =>
                  match sliceIndex g.artists id with
                  | .error e => .error e
                  | .ok a4 =>
                    renderTemplate world g w1 "details.html"
                      { Title := "Artist Details", Artist := a4, Locations := locations,
                        Dates := dates, Concerts := rel }

/-- The `for ... range artists` loop of `SearchPage`: append every artist whose
lower-cased name contains the lower-cased query. -/
def searchLoop (world : World) (artists : List Artist) (query : String) : List Artist :=
  artists.foldl
    (fun results artist =>
      if Contains (ToLower world artist.Name) (ToLower world query) then results ++ [artist]
      else results)
    []

/-- The view model `SearchPage` builds from the query and the loop's results. -/
def searchData (query : String) (results : List Artist) : TemplateData :=
  let data : TemplateData := { Title := "Search Results", Query := query, Results := results }
  if results.length = 0 then { data with Message := "No artists found matching your query." }
  else data

/-- The handler `SearchPage`. -/
def SearchPage (world : World) (g : Globals) (w : ResponseWriter) (r : Request) :
    Except String ResponseWriter :=
  match checkMethodAndPath world w r "GET" "/search/" with
  | .error e => .error e
  | .ok (false, w1) => .ok w1
  | .ok (true, w1) =>
    let query := ValuesGet r.URL.Query "q"
    if query = "" then ErrorPage world w1 400
    else
      renderTemplate world g w1 "search.html" (searchData query (searchLoop world g.artists query))

/-- The message and status `toHTTPError` derives from a failed open. -/
def toHTTPError : FileError → String × Int
  | .notExist => ("404 page not found", 404)
  | .permission => ("403 Forbidden", 403)
  | .other => ("500 Internal Server Error", 500)

/-- The helper `localRedirect` of `net/http`: a `Location` header with the
query string kept, and status 301. -/
def localRedirect (w : ResponseWriter) (r : Request) (newPath : String) :
    Except String ResponseWriter :=
  let location := if r.URL.RawQuery ≠ "" then newPath ++ "?" ++ r.URL.RawQuery else newPath
  ResponseWriter.WriteHeader { w with HeaderMap := HeaderSet w.HeaderMap "Location" location } 301

/-- Whether the request carries one of the headers `checkPreconditions` and the
range handling of `serveContent` act on. -/
def conditionalOrRange (r : Request) : Bool :=
  ["If-Match", "If-Unmodified-Since", "If-None-Match", "If-Modified-Since", "Range"].any
    (fun key => ValuesGet r.Header key != "")

/-- The function `serveContent` of `net/http` for an opened regular file:
`Last-Modified` is set unless the modification time is zero; for a request
without conditional or `Range` header and a response whose Content-Type is
already set, `Accept-Ranges` and (unless a Content-Encoding is set)
`Content-Length` are added, the status is 200 and the content is written
unless the method is `HEAD`; every other case is `World.serveContentRest`. -/
def serveContent (world : World) (w : ResponseWriter) (r : Request) (name content : String) :
    Except String ResponseWriter :=
  let w1 : ResponseWriter :=
    match world.lastModified name with
    | some t => { w with HeaderMap := HeaderSet w.HeaderMap "Last-Modified" t }
    | none => w
  if conditionalOrRange r ∨ ¬ w1.HeaderMap.any (fun kv => kv.1 == "Content-Type") then
    world.serveContentRest r name content w1
  else
    let w2 : ResponseWriter :=
      { w1 with HeaderMap := HeaderSet w1.HeaderMap "Accept-Ranges" "bytes" }
    let size : String := formatInt (content.utf8ByteSize : Int)
    let w3 : ResponseWriter :=
      if ValuesGet w2.HeaderMap "Content-Encoding" = "" then
        { w2 with HeaderMap := HeaderSet w2.HeaderMap "Content-Length" size }
      else w2
    match w3.WriteHeader 200 with
    | .error e => .error e
    | .ok w4 => if r.Method ≠ "HEAD" then .ok (w4.Write content) else .ok w4

/-- The call `http.ServeFile(w, r, name)`: a URL path with a `..` element is
refused with 400; a URL path ending in `/index.html` is redirected to `./`; an
open failure is reported through `toHTTPError`; an opened regular file goes to
`serveContent`. `World.readFile` succeeds only on a regular file, so the
directory branch of `serveFile` (index page, listing) has no counterpart here:
`ServeStatic` has answered 404 for a directory before it calls `http.ServeFile`. -/
def ServeFile (world : World) (w : ResponseWriter) (r : Request) (name : String) :
    Except String ResponseWriter :=
  if containsDotDot r.URL.Path then httpError w "invalid URL path" 400
  else if hasSuffixChars r.URL.Path.data "/index.html".data then localRedirect w r "./"
  else
    match world.readFile name with
    | .error e => httpError w (toHTTPError e).1 (toHTTPError e).2
    | .ok content => serveContent world w r name content

/-- The `switch ext` of `ServeStatic`: the content type of an allowed extension. -/
def staticContentType (ext : String) : Option String :=
  if ext = ".css" then some "text/css"
  else if ext = ".js" then some "application/javascript"
  else if ext = ".png" then some "image/png"
  else if ext = ".jpg" ∨ ext = ".jpeg" then some "image/jpeg"
  else if ext = ".otf" then some "font/otf"
  else none

/-- The path `ServeStatic` looks up: `path.Join("static", strings.TrimPrefix(r.URL.Path, "/static/"))`. -/
def staticFilePath (r : Request) : String :=
  String.mk (pathJoinStatic (trimPrefixChars r.URL.Path.data "/static/".data))

/-- The handler `ServeStatic`. -/
def ServeStatic (world : World) (w : ResponseWriter) (r : Request) :
    Except String ResponseWriter :=
  if r.Method ≠ "GET" then ErrorPage world w 405
  else
    let filePath := staticFilePath r
    match world.stat filePath with
    | none => ErrorPage world w 404
    | some info =>
      if info.IsDir then ErrorPage world w 404
      else
        match staticContentType (filepathExt filePath) with
        | none => ErrorPage world w 404
        | some ct =>
          ServeFile world { w with HeaderMap := HeaderSet w.HeaderMap "Content-Type" ct } r filePath

/-- The status code of the response a handler leaves behind; `none` when the
handler panicked. -/
def responseCode (res : Except String ResponseWriter) : Option Int :=
  match res with
  | .ok w => some w.Code
  | .error _ => none

/-- The body of the response a handler leaves behind; `none` when the handler panicked. -/
def responseBody (res : Except String ResponseWriter) : Option String :=
  match res with
  | .ok w => some w.Body
  | .error _ => none

/-- The writer right after `w.WriteHeader(code)` on a response whose header was not written. -/
def afterHeader (w : ResponseWriter) (code : Int) : ResponseWriter :=
  { w with Code := code, wroteHeader := true, sentHeader := w.HeaderMap }

/-! ## Fixtures: the data of `handlers_test.go` -/

/-- The artist of `TestInfoAboutArtist`. -/
def testArtist : Artist :=
  { ID := 1, Name := "Test Artist",
    Locations := "https://groupietrackers.herokuapp.com/api/locations/1",
    ConcertDates := "https://groupietrackers.herokuapp.com/api/dates/1",
    Relations := "https://groupietrackers.herokuapp.com/api/relation/1" }

/-- The second artist of `TestSearchPage`. -/
def anotherArtist : Artist :=
  { ID := 2, Name := "Another Artist" }

/-- A page template that writes the title, the artist name and the query and never fails. -/
def pageTemplate : Template :=
  { execute := fun data => ([data.Title, data.Artist.Name, data.Query, data.Message], false) }

/-- An error template that writes an opening tag and then fails. -/
def brokenTemplate : Template :=
  { execute := fun _ => (["<h1>"], true) }

/-- A world in which every fetch succeeds, ASCII letters are lower-cased, the
error template is missing (as when the tests run inside `server/`), the file
system is empty; `serveContentRest` is a stand-in (status 304, no body) that no
request of the fixtures reaches. -/
def testWorld : World :=
  { unicodeToLower := Char.toLower
    fetchLoc := fun _ => .ok { Locations := ["london-uk"] }
    fetchDate := fun _ => .ok { Dates := ["01-01-2020"] }
    fetchRelation := fun _ => .ok { DatesLocation := [("london-uk", ["01-01-2020"])] }
    errorsTemplate := none
    stat := fun _ => none
    readFile := fun _ => .error FileError.notExist
    lastModified := fun _ => none
    serveContentRest := fun _ _ _ w => ResponseWriter.WriteHeader w 304 }

/-- The world `testWorld` with the dates endpoint down. -/
def datesDownWorld : World :=
  { testWorld with fetchDate := fun _ => .error "failed to fetch data" }

/-- The world `testWorld` with an error template that fails half-way. -/
def brokenErrorsWorld : World :=
  { testWorld with errorsTemplate := some brokenTemplate }

/-- Globals with the two test artists and the three page templates loaded. -/
def testGlobals : Globals :=
  { templates := fun name =>
      if name = "index.html" ∨ name = "details.html" ∨ name = "search.html" then
        some pageTemplate
      else none
    artists := [testArtist, anotherArtist] }

/-- A `GET` request for `path` with the given query pairs. -/
def getRequest (path : String) (query : List (String × String)) : Request :=
  { Method := "GET", URL := { Path := path, Query := query } }

/-- Globals whose only template writes an opening tag and then fails. -/
def brokenGlobals : Globals :=
  { templates := fun name => if name = "broken.html" then some brokenTemplate else none
    artists := [] }

/-- The world `testWorld` with a file system that holds the directory `static`
and the regular file `static/style.css`, last modified on 2 January 2006. -/
def staticWorld : World :=
  { testWorld with
    stat := fun name =>
      if name = "static/style.css" then some { IsDir := false }
      else if name = "static" then some { IsDir := true }
      else none
    readFile := fun name =>
      if name = "static/style.css" then .ok "body{}" else .error FileError.notExist
    lastModified := fun name =>
      if name = "static/style.css" then some "Mon, 02 Jan 2006 15:04:05 GMT" else none }

/-- The world `staticWorld` with one more regular file, `secret.css`, next to the
directory `static` and not inside it. -/
def outsideWorld : World :=
  { staticWorld with
    stat := fun name =>
      if name = "secret.css" then some { IsDir := false } else staticWorld.stat name
    readFile := fun name =>
      if name = "secret.css" then .ok "hidden" else staticWorld.readFile name }

/-! ## The handlers as steps on the package-level variables

The same handlers once more, written over the state of the package-level
variables: every use of `templates` or `artists` in `handlers.go` is a read of
the state, and a step returns the state it leaves behind. The slice handed to
the template (`Data: artists`) is only read by `text/template`, and `results`
starts as a nil slice, so `append` never writes into the catalog's array. -/

/-- Read of the package-level variable `templates`. -/
def readTemplates : StateM Globals (String → Option Template) := do
  return (← get).templates

/-- Read of the package-level variable `artists`. -/
def readArtists : StateM Globals (List Artist) := do
  return (← get).artists

/-- The helper `renderTemplate` as a step on the package state. -/
def renderTemplateStep (world : World) (w : ResponseWriter) (tmpl : String)
    (data : TemplateData) : StateM Globals (Except String ResponseWriter) := do
  let templates ← readTemplates
  match templates tmpl with
  | none => return ErrorPage world w 404
  | some t =>
    if (t.Execute w data).2 then return ErrorPage world (t.Execute w data).1 500
    else return .ok (t.Execute w data).1

/-- The handler `MainPage` as a step on the package state. -/
def MainPageStep (world : World) (w : ResponseWriter) (r : Request) :
    StateM Globals (Except String ResponseWriter) := do
  match checkMethodAndPath world w r "GET" "/" with
  | .error e => return .error e
  | .ok (false, w1) => return .ok w1
  | .ok (true, w1) =>
    let artists ← readArtists
    renderTemplateStep world w1 "index.html"
      { Title := "Groupie Trackers - Artists", Data := artists }

/-- The handler `InfoAboutArtist` as a step on the package state; `artists` is
read anew at each of its uses. -/
def InfoAboutArtistStep (world : World) (w : ResponseWriter) (r : Request) :
    StateM Globals (Except String ResponseWriter) := do
  match checkMethodAndPath world w r "GET" "/artists/" with
  | .error e => return .error e
  | .ok (false, w1) => return .ok w1
  | .ok (true, w1) =>
    let parsed := Atoi (ValuesGet r.URL.Query "id")
    let artists0 ← readArtists
    if parsed.1 ≤ 0 ∨ parsed.1 > (artists0.length : Int) ∨ parsed.2 ≠ none then
      return ErrorPage world w1 400
    else
      let id := parsed.1 - 1
      let artists1 ← readArtists
      match sliceIndex artists1 id with
      | .error e => return .error e
      | .ok a1 =>
        match FetchLocations world a1.Locations with
        | .error _ => return ErrorPage world w1 500
        | .ok locations =>
          let artists2 ← readArtists
          match sliceIndex artists2 id with
          | .error e => return .error e
          | .ok a2 =>
            match FetchDates world a2.ConcertDates with
            | .error _ => return ErrorPage world w1 500
            | .ok dates =>
              let artists3 ← readArtists
              match sliceIndex artists3 id with
              | .error e => return .error e
              | .ok a3 =>
                match FetchRelation world a3.Relations with
                | .error _ => return ErrorPage world w1 500
                | .ok rel =>
                  let artists4 ← readArtists
                  match sliceIndex artists4 id with
                  | .error e => return .error e
                  | .ok a4 =>
                    renderTemplateStep world w1 "details.html"
                      { Title := "Artist Details", Artist := a4, Locations := locations,
                        Dates := dates, Concerts := rel }

/-- The handler `SearchPage` as a step on the package state. -/
def SearchPageStep (world : World) (w : ResponseWriter) (r : Request) :
    StateM Globals (Except String ResponseWriter) := do
  match checkMethodAndPath world w r "GET" "/search/" with
  | .error e => return .error e
  | .ok (false, w1) => return .ok w1
  | .ok (true, w1) =>
    let query := ValuesGet r.URL.Query "q"
    if query = "" then return ErrorPage world w1 400
    else
      let artists ← readArtists
      renderTemplateStep world w1 "search.html" (searchData query (searchLoop world artists query))

/-- The handler `ServeStatic` as a step on the package state: it uses neither
`templates` nor `artists`. -/
def ServeStaticStep (world : World) (w : ResponseWriter) (r : Request) :
    StateM Globals (Except String ResponseWriter) := do
  return ServeStatic world w r

/-! ## The response writer: basic facts -/

theorem Write_wroteHeader (w : ResponseWriter) (buf : String) :
    (w.Write buf).wroteHeader = true := by
  unfold ResponseWriter.Write
  by_cases h : w.wroteHeader = true <;> simp [h]

theorem Write_Code_of_wrote (w : ResponseWriter) (buf : String) (h : w.wroteHeader = true) :
    (w.Write buf).Code = w.Code := by
  simp [ResponseWriter.Write, h]

theorem Write_Code_of_fresh (w : ResponseWriter) (buf : String) (h : w.wroteHeader = false) :
    (w.Write buf).Code = 200 := by
  simp [ResponseWriter.Write, h]

theorem Write_Body (w : ResponseWriter) (buf : String) :
    (w.Write buf).Body = w.Body ++ buf := by
  unfold ResponseWriter.Write
  by_cases h : w.wroteHeader = true <;> simp [h]

theorem foldl_Write_of_wrote (chunks : List String) (w : ResponseWriter)
    (h : w.wroteHeader = true) :
    (chunks.foldl ResponseWriter.Write w).wroteHeader = true ∧
      (chunks.foldl ResponseWriter.Write w).Code = w.Code := by
  induction chunks generalizing w with
  | nil => exact ⟨h, rfl⟩
  | cons c cs ih =>
    have h1 := ih (w.Write c) (Write_wroteHeader w c)
    rw [Write_Code_of_wrote w c h] at h1
    simpa [List.foldl] using h1

theorem foldl_Write_Code_fresh (chunks : List String) (w : ResponseWriter)
    (h : w.wroteHeader = false) (hc : w.Code = 200) :
    (chunks.foldl ResponseWriter.Write w).Code = 200 := by
  cases chunks with
  | nil => simpa using hc
  | cons c cs =>
    have h1 := (foldl_Write_of_wrote cs (w.Write c) (Write_wroteHeader w c)).2
    rw [Write_Code_of_fresh w c h] at h1
    simpa [List.foldl] using h1

theorem foldl_append_eq (cs : List String) (a : String) :
    cs.foldl (fun r s => r ++ s) a = a ++ String.join cs := by
  induction cs generalizing a with
  | nil => simp [String.join]
  | cons c cs ih =>
    have h1 := ih (a ++ c)
    have h2 := ih ("" ++ c)
    simp only [String.join, List.foldl] at h1 h2 ⊢
    rw [h1, h2]
    simp [String.append_assoc]

theorem join_cons (c : String) (cs : List String) :
    String.join (c :: cs) = c ++ String.join cs := by
  have h := foldl_append_eq cs ("" ++ c)
  simpa [String.join] using h

theorem foldl_Write_Body (chunks : List String) (w : ResponseWriter) :
    (chunks.foldl ResponseWriter.Write w).Body = w.Body ++ String.join chunks := by
  induction chunks generalizing w with
  | nil => simp [String.join]
  | cons c cs ih =>
    simp only [List.foldl]
    rw [ih, Write_Body, join_cons, String.append_assoc]

theorem Execute_of_wrote (t : Template) (w : ResponseWriter) (data : TemplateData)
    (h : w.wroteHeader = true) :
    (t.Execute w data).1.wroteHeader = true ∧ (t.Execute w data).1.Code = w.Code := by
  simpa [Template.Execute] using foldl_Write_of_wrote (t.execute data).1 w h

theorem Execute_Body (t : Template) (w : ResponseWriter) (data : TemplateData) :
    (t.Execute w data).1.Body = w.Body ++ String.join (t.execute data).1 := by
  simp [Template.Execute, foldl_Write_Body]

theorem Execute_Code_fresh (t : Template) (w : ResponseWriter) (data : TemplateData)
    (h : w.wroteHeader = false) (hc : w.Code = 200) :
    (t.Execute w data).1.Code = 200 := by
  simpa [Template.Execute] using foldl_Write_Code_fresh (t.execute data).1 w h hc

theorem httpError_of_wrote (w : ResponseWriter) (msg : String) (code : Int)
    (h : w.wroteHeader = true) :
    ∃ w1, httpError w msg code = .ok w1 ∧ w1.wroteHeader = true ∧ w1.Code = w.Code ∧
      w1.Body = w.Body ++ (msg ++ "\n") := by
  refine ⟨ResponseWriter.Write { w with HeaderMap := HeaderSet (HeaderSet w.HeaderMap
    "Content-Type" "text/plain; charset=utf-8") "X-Content-Type-Options" "nosniff" }
    (msg ++ "\n"), ?_, Write_wroteHeader _ _, ?_, ?_⟩
  · simp only [httpError, ResponseWriter.WriteHeader, h, if_true]
  · exact Write_Code_of_wrote _ _ h
  · exact Write_Body _ _

theorem WriteHeader_fresh (w : ResponseWriter) (code : Int) (h : w.wroteHeader = false)
    (h1 : 100 ≤ code) (h2 : code ≤ 999) :
    w.WriteHeader code = .ok (afterHeader w code) := by
  have h3 : ¬ (code < 100 ∨ code > 999) := by omega
  simp [ResponseWriter.WriteHeader, h, h3, afterHeader]

theorem WriteHeader_wrote (w : ResponseWriter) (code : Int) (h : w.wroteHeader = true) :
    w.WriteHeader code = .ok w := by
  simp [ResponseWriter.WriteHeader, h]

/-- What `ErrorPage` does once the header is written: the status stays, and the
body grows by what the error template wrote, followed by the plain-text line
when the template is missing or failed. -/
theorem ErrorPage_of_headerWritten (world : World) (w1 : ResponseWriter) (code : Int)
    (h : w1.wroteHeader = true)
    (res : Except String ResponseWriter)
    (hres : res = match world.errorsTemplate with
      | none => httpError w1 (ErrorPage.plainText code) code
      | some tmpl =>
        if (tmpl.Execute w1 (ErrorPage.data code)).2 then
          httpError (tmpl.Execute w1 (ErrorPage.data code)).1 (ErrorPage.plainText code) code
        else .ok (tmpl.Execute w1 (ErrorPage.data code)).1) :
    ∃ w2, res = .ok w2 ∧ w2.wroteHeader = true ∧ w2.Code = w1.Code ∧
      (world.errorsTemplate = none →
        w2.Body = w1.Body ++ (ErrorPage.plainText code ++ "\n")) ∧
      (∀ t, world.errorsTemplate = some t → (t.execute (ErrorPage.data code)).2 = true →
        w2.Body = w1.Body ++ String.join (t.execute (ErrorPage.data code)).1 ++
          (ErrorPage.plainText code ++ "\n")) ∧
      (∀ t, world.errorsTemplate = some t → (t.execute (ErrorPage.data code)).2 = false →
        w2.Body = w1.Body ++ String.join (t.execute (ErrorPage.data code)).1) := by
  subst hres
  cases ht : world.errorsTemplate with
  | none =>
    obtain ⟨w2, e, a, c, b⟩ := httpError_of_wrote w1 (ErrorPage.plainText code) code h
    exact ⟨w2, by simpa using e, a, c, fun _ => b, fun t h => by simp at h,
      fun t h => by simp at h⟩
  | some tmpl =>
    have hx := Execute_of_wrote tmpl w1 (ErrorPage.data code) h
    have hb := Execute_Body tmpl w1 (ErrorPage.data code)
    have h2 : (tmpl.Execute w1 (ErrorPage.data code)).2 =
        (tmpl.execute (ErrorPage.data code)).2 := rfl
    by_cases hf : (tmpl.execute (ErrorPage.data code)).2 = true
    · obtain ⟨w2, e, a, c, b⟩ := httpError_of_wrote _ (ErrorPage.plainText code) code hx.1
      refine ⟨w2, by simpa [h2, hf] using e, a, by rw [c, hx.2], fun h => by simp at h, ?_, ?_⟩
      · intro t hts _
        simp only [Option.some.injEq] at hts
        subst hts
        rw [b, hb]
      · intro t hts hnf
        simp only [Option.some.injEq] at hts
        subst hts
        rw [hf] at hnf
        exact absurd hnf (by decide)
    · refine ⟨_, by simp [h2, hf], hx.1, hx.2, fun h => by simp at h, ?_, ?_⟩
      · intro t hts hff
        simp only [Option.some.injEq] at hts
        subst hts
        exact absurd hff hf
      · intro t hts _
        simp only [Option.some.injEq] at hts
        subst hts
        exact hb

/-- On a response whose header is not written yet, `ErrorPage` with a code that
`WriteHeader` accepts returns normally and the status is that code. -/
theorem ErrorPage_fresh (world : World) (w : ResponseWriter) (code : Int)
    (h : w.wroteHeader = false) (h1 : 100 ≤ code) (h2 : code ≤ 999) :
    ∃ w2, ErrorPage world w code = .ok w2 ∧ w2.wroteHeader = true ∧ w2.Code = code := by
  obtain ⟨w2, e, a, b, _⟩ := ErrorPage_of_headerWritten world (afterHeader w code) code rfl _ rfl
  refine ⟨w2, ?_, a, by simpa [afterHeader] using b⟩
  rw [← e]
  simp only [ErrorPage, WriteHeader_fresh w code h h1 h2]

/-- On a response whose header is already written, `ErrorPage` returns normally
and leaves the status as it was. -/
theorem ErrorPage_wrote (world : World) (w : ResponseWriter) (code : Int)
    (h : w.wroteHeader = true) :
    ∃ w2, ErrorPage world w code = .ok w2 ∧ w2.wroteHeader = true ∧ w2.Code = w.Code := by
  obtain ⟨w2, e, a, b, _⟩ := ErrorPage_of_headerWritten world w code h _ rfl
  refine ⟨w2, ?_, a, b⟩
  rw [← e]
  simp only [ErrorPage, WriteHeader_wrote w code h]

theorem Execute_fresh (t : Template) (w : ResponseWriter) (data : TemplateData)
    (h : w.wroteHeader = false) :
    (t.Execute w data).1 = w ∨
      ((t.Execute w data).1.wroteHeader = true ∧ (t.Execute w data).1.Code = 200) := by
  unfold Template.Execute
  cases (t.execute data).1 with
  | nil => exact Or.inl rfl
  | cons c cs =>
    right
    have h1 := foldl_Write_of_wrote cs (w.Write c) (Write_wroteHeader w c)
    rw [Write_Code_of_fresh w c h] at h1
    simpa [List.foldl] using h1

/-- On a fresh recorder `renderTemplate` returns normally with status 404, 200 or 500. -/
theorem renderTemplate_fresh (world : World) (g : Globals) (w : ResponseWriter)
    (tmpl : String) (data : TemplateData) (h : w.wroteHeader = false) (hc : w.Code = 200) :
    ∃ w2, renderTemplate world g w tmpl data = .ok w2 ∧
      (w2.Code = 404 ∨ w2.Code = 200 ∨ w2.Code = 500) := by
  unfold renderTemplate
  cases ht : g.templates tmpl with
  | none =>
    obtain ⟨w2, e, _, c⟩ := ErrorPage_fresh world w 404 h (by decide) (by decide)
    exact ⟨w2, e, Or.inl c⟩
  | some t =>
    by_cases hf : (t.Execute w data).2 = true
    · simp only [hf, if_true]
      rcases Execute_fresh t w data h with e1 | ⟨e1, e2⟩
      · rw [e1]
        obtain ⟨w2, e, _, c⟩ := ErrorPage_fresh world w 500 h (by decide) (by decide)
        exact ⟨w2, e, Or.inr (Or.inr c)⟩
      · obtain ⟨w2, e, _, c⟩ := ErrorPage_wrote world (t.Execute w data).1 500 e1
        exact ⟨w2, e, Or.inr (Or.inl (by rw [c, e2]))⟩
    · refine ⟨(t.Execute w data).1, by simp [hf], Or.inr (Or.inl ?_)⟩
      exact Execute_Code_fresh t w data h hc

/-- A loaded template that executes without error: `renderTemplate` leaves exactly
what the template wrote, with status 200. -/
theorem renderTemplate_ok (world : World) (g : Globals) (w : ResponseWriter)
    (tmpl : String) (data : TemplateData) (t : Template)
    (ht : g.templates tmpl = some t) (hx : (t.execute data).2 = false) :
    renderTemplate world g w tmpl data = .ok (t.Execute w data).1 := by
  have hx2 : (t.Execute w data).2 = false := by simpa [Template.Execute] using hx
  simp [renderTemplate, ht, hx2]

theorem checkMethodAndPath_match (world : World) (w : ResponseWriter) (r : Request)
    (method path : String) (hm : r.Method = method) (hp : r.URL.Path = path) :
    checkMethodAndPath world w r method path = .ok (true, w) := by
  simp [checkMethodAndPath, hm, hp]

theorem checkMethodAndPath_method (world : World) (w : ResponseWriter) (r : Request)
    (method path : String) (hm : r.Method ≠ method) (hw : w.wroteHeader = false) :
    ∃ w2, checkMethodAndPath world w r method path = .ok (false, w2) ∧
      ErrorPage world w 405 = .ok w2 ∧ w2.Code = 405 := by
  obtain ⟨w2, e, _, c⟩ := ErrorPage_fresh world w 405 hw (by decide) (by decide)
  exact ⟨w2, by simp [checkMethodAndPath, hm, e], e, c⟩

theorem checkMethodAndPath_path (world : World) (w : ResponseWriter) (r : Request)
    (method path : String) (hm : r.Method = method) (hp : r.URL.Path ≠ path)
    (hw : w.wroteHeader = false) :
    ∃ w2, checkMethodAndPath world w r method path = .ok (false, w2) ∧
      ErrorPage world w 404 = .ok w2 ∧ w2.Code = 404 := by
  obtain ⟨w2, e, _, c⟩ := ErrorPage_fresh world w 404 hw (by decide) (by decide)
  exact ⟨w2, by simp [checkMethodAndPath, hm, hp, e], e, c⟩

theorem sliceIndex_ok {α : Type} (xs : List α) (i : Nat) (hi : i < xs.length) :
    sliceIndex xs ((i : Int) + 1 - 1) = .ok xs[i] := by
  have h0 : ¬ ((i : Int) + 1 - 1 < 0) := by omega
  have h1 : ((i : Int) + 1 - 1).toNat = i := by omega
  simp [sliceIndex, h0, h1, List.getElem?_eq_getElem hi]

/-- A valid id passes the validation and every `artists[id]` succeeds: what is
left of `InfoAboutArtist` is the three fetches and the rendering. -/
theorem InfoAboutArtist_valid (world : World) (g : Globals) (w : ResponseWriter) (r : Request)
    (i : Nat) (hi : i < g.artists.length)
    (hm : r.Method = "GET") (hp : r.URL.Path = "/artists/")
    (hid : Atoi (ValuesGet r.URL.Query "id") = ((i : Int) + 1, none)) :
    InfoAboutArtist world g w r =
      match FetchLocations world g.artists[i].Locations with
      | .error _ => ErrorPage world w 500
      | .ok locations =>
        match FetchDates world g.artists[i].ConcertDates with
        | .error _ => ErrorPage world w 500
        | .ok dates =>
          match FetchRelation world g.artists[i].Relations with
          | .error _ => ErrorPage world w 500
          | .ok rel =>
            renderTemplate world g w "details.html"
              { Title := "Artist Details", Artist := g.artists[i], Locations := locations,
                Dates := dates, Concerts := rel } := by
  have hv : ¬ ((i : Int) + 1 ≤ 0 ∨ (i : Int) + 1 > (g.artists.length : Int) ∨
      (none : Option NumError) ≠ none) := by
    rintro (h | h | h)
    · omega
    · omega
    · exact h rfl
  simp only [InfoAboutArtist, checkMethodAndPath_match world w r "GET" "/artists/" hm hp, hid,
    sliceIndex_ok g.artists i hi]
  rw [if_neg hv]

/-! ## `strconv.Atoi` reads back what `%d` prints -/

theorem digit_toNat (d : Nat) (h : d < 10) : (Char.ofNat (48 + d)).toNat = 48 + d := by
  interval_cases d <;> rfl

theorem parseUintLoop_append (xs ys : List Char) (a : Nat) :
    parseUintLoop (xs ++ ys) a =
      match parseUintLoop xs a with
      | (m, none) => parseUintLoop ys m
      | (m, some e) => (m, some e) := by
  induction xs generalizing a with
  | nil => simp [parseUintLoop]
  | cons c cs ih =>
    simp only [List.cons_append, parseUintLoop]
    split_ifs <;> simp [ih]

theorem decimalDigits_digits (fuel n : Nat) :
    ∀ c ∈ decimalDigits fuel n, 48 ≤ c.toNat ∧ c.toNat ≤ 57 := by
  induction fuel generalizing n with
  | zero => simp [decimalDigits]
  | succ fuel ih =>
    intro c hc
    unfold decimalDigits at hc
    split_ifs at hc with h
    · simp only [List.mem_singleton] at hc
      subst hc
      rw [digit_toNat n h]; omega
    · simp only [List.mem_append, List.mem_singleton] at hc
      rcases hc with hc | hc
      · exact ih _ c hc
      · subst hc
        rw [digit_toNat (n % 10) (Nat.mod_lt _ (by decide))]
        have := Nat.mod_lt n (show 10 > 0 by decide)
        omega

theorem decimalDigits_ne_nil (fuel n : Nat) : decimalDigits (fuel + 1) n ≠ [] := by
  unfold decimalDigits
  split_ifs <;> simp

theorem parseUintLoop_digit (a d : Nat) (cs : List Char) (hd : d < 10)
    (h : a * 10 + d < 2 ^ 64) :
    parseUintLoop (Char.ofNat (48 + d) :: cs) a = parseUintLoop cs (a * 10 + d) := by
  have e64 : (2 : Nat) ^ 64 = 18446744073709551616 := by norm_num
  rw [e64] at h
  have m1 : a * 10 % 18446744073709551616 = a * 10 := Nat.mod_eq_of_lt (by omega)
  have m2 : (a * 10 + (48 + d - 48)) % 18446744073709551616 = a * 10 + d := by
    rw [Nat.add_sub_cancel_left]; exact Nat.mod_eq_of_lt h
  simp only [parseUintLoop, digit_toNat d hd, e64, m1, m2]
  rw [if_pos (by omega), if_neg (by omega), if_neg (by omega)]

theorem parseUintLoop_decimalDigits (fuel n : Nat) (hf : n < fuel) (hn : n < 2 ^ 64) :
    parseUintLoop (decimalDigits fuel n) 0 = (n, none) := by
  induction fuel generalizing n with
  | zero => omega
  | succ fuel ih =>
    unfold decimalDigits
    split_ifs with h
    · rw [parseUintLoop_digit 0 n [] h (by omega)]
      simp [parseUintLoop]
    · have hlt : n / 10 < fuel := by omega
      have h64 : n / 10 < 2 ^ 64 := by omega
      rw [parseUintLoop_append, ih (n / 10) hlt h64]
      have hm := Nat.mod_lt n (show 10 > 0 by decide)
      have hdm := Nat.div_add_mod n 10
      simp only
      rw [parseUintLoop_digit (n / 10) (n % 10) [] hm (by omega)]
      simp only [parseUintLoop]
      congr 1
      omega

theorem ParseInt_decimalDigits (n : Nat) (hn : n < 2 ^ 63) :
    ParseInt (decimalDigits (n + 1) n) = ((n : Int), none) := by
  have hp := parseUintLoop_decimalDigits (n + 1) n (by omega) (by omega)
  have hdig := decimalDigits_digits (n + 1) n
  cases hl : decimalDigits (n + 1) n with
  | nil => exact absurd hl (decimalDigits_ne_nil n n)
  | cons c cs =>
    rw [hl] at hp hdig
    have hc := hdig c (List.mem_cons_self _ _)
    have h1 : c ≠ '+' := by rintro rfl; revert hc; decide
    have h2 : c ≠ '-' := by rintro rfl; revert hc; decide
    simp only [ParseInt, h1, h2, false_or, if_false, ParseUint, hp]
    simp
    omega

/-- The round trip `Atoi(strconv.Itoa(n)) = n` for the non-negative `int` values. -/
theorem Atoi_formatInt (n : Nat) (hn : n < 2 ^ 63) :
    Atoi (formatInt (n : Int)) = ((n : Int), none) := by
  have h := ParseInt_decimalDigits n hn
  simpa [Atoi, formatInt] using h

/-! ## The artist page: `InfoAboutArtist` -/

theorem ValuesGet_missing (q : List (String × String)) (key : String)
    (h : q.find? (fun kv => kv.1 == key) = none) : ValuesGet q key = "" := by
  simp [ValuesGet, h]

theorem Atoi_empty : Atoi "" = (0, some NumError.errSyntax) := by decide

/-- An id that fails the validation of `InfoAboutArtist` is answered by `ErrorPage(w, 400)`. -/
theorem InfoAboutArtist_invalid (world : World) (g : Globals) (w : ResponseWriter) (r : Request)
    (hm : r.Method = "GET") (hp : r.URL.Path = "/artists/")
    (hv : (Atoi (ValuesGet r.URL.Query "id")).1 ≤ 0 ∨
      (Atoi (ValuesGet r.URL.Query "id")).1 > (g.artists.length : Int) ∨
      (Atoi (ValuesGet r.URL.Query "id")).2 ≠ none) :
    InfoAboutArtist world g w r = ErrorPage world w 400 := by
  simp only [InfoAboutArtist, checkMethodAndPath_match world w r "GET" "/artists/" hm hp]
  rw [if_pos hv]

/-- With a valid id, `InfoAboutArtist` on a fresh recorder returns normally with
status 500, 404 or 200. -/
theorem InfoAboutArtist_valid_code (world : World) (g : Globals) (w : ResponseWriter)
    (r : Request) (i : Nat) (hi : i < g.artists.length)
    (hm : r.Method = "GET") (hp : r.URL.Path = "/artists/")
    (hid : Atoi (ValuesGet r.URL.Query "id") = ((i : Int) + 1, none))
    (hw : w.wroteHeader = false) (hc : w.Code = 200) :
    ∃ w2, InfoAboutArtist world g w r = .ok w2 ∧
      (w2.Code = 404 ∨ w2.Code = 200 ∨ w2.Code = 500) := by
  rw [InfoAboutArtist_valid world g w r i hi hm hp hid]
  obtain ⟨w5, e5, _, c5⟩ := ErrorPage_fresh world w 500 hw (by decide) (by decide)
  cases FetchLocations world g.artists[i].Locations with
  | error e => exact ⟨w5, e5, Or.inr (Or.inr c5)⟩
  | ok locations =>
    cases FetchDates world g.artists[i].ConcertDates with
    | error e => exact ⟨w5, e5, Or.inr (Or.inr c5)⟩
    | ok dates =>
      cases FetchRelation world g.artists[i].Relations with
      | error e => exact ⟨w5, e5, Or.inr (Or.inr c5)⟩
      | ok rel => exact renderTemplate_fresh world g w _ _ hw hc

/-- An id that passes the validation is `i + 1` for an index `i` of the catalog. -/
theorem valid_id_index (g : Globals) (p : Int × Option NumError)
    (hv : ¬ (p.1 ≤ 0 ∨ p.1 > (g.artists.length : Int) ∨ p.2 ≠ none)) :
    ∃ i : Nat, i < g.artists.length ∧ p = ((i : Int) + 1, none) := by
  obtain ⟨n, e⟩ := p
  simp only [not_or, not_le, gt_iff_lt, not_lt, ne_eq, not_not] at hv
  obtain ⟨h1, h2, h3⟩ := hv
  refine ⟨(n - 1).toNat, by omega, ?_⟩
  have : ((n - 1).toNat : Int) + 1 = n := by omega
  rw [this, h3]

/-- The status `InfoAboutArtist` answers a `GET /artists/` request with is 400
exactly when the id fails the validation; it never panics. -/
theorem InfoAboutArtist_400_iff (world : World) (g : Globals) (r : Request)
    (hm : r.Method = "GET") (hp : r.URL.Path = "/artists/") :
    (∃ w2, InfoAboutArtist world g NewRecorder r = .ok w2) ∧
    (responseCode (InfoAboutArtist world g NewRecorder r) = some 400 ↔
      ((Atoi (ValuesGet r.URL.Query "id")).1 ≤ 0 ∨
        (Atoi (ValuesGet r.URL.Query "id")).1 > (g.artists.length : Int) ∨
        (Atoi (ValuesGet r.URL.Query "id")).2 ≠ none)) := by
  by_cases hv : (Atoi (ValuesGet r.URL.Query "id")).1 ≤ 0 ∨
      (Atoi (ValuesGet r.URL.Query "id")).1 > (g.artists.length : Int) ∨
      (Atoi (ValuesGet r.URL.Query "id")).2 ≠ none
  · obtain ⟨w4, e4, _, c4⟩ := ErrorPage_fresh world NewRecorder 400 rfl (by decide) (by decide)
    rw [InfoAboutArtist_invalid world g NewRecorder r hm hp hv, e4]
    exact ⟨⟨w4, rfl⟩, by simp [responseCode, c4, hv]⟩
  · obtain ⟨i, hi, hid⟩ := valid_id_index g _ hv
    obtain ⟨w2, e2, c2⟩ := InfoAboutArtist_valid_code world g NewRecorder r i hi hm hp hid rfl rfl
    refine ⟨⟨w2, e2⟩, ?_⟩
    rw [e2]
    simp only [responseCode, Option.some.injEq, hv, iff_false]
    rcases c2 with c | c | c <;> rw [c] <;> decide

/-- C1: for a `GET` request to the exact path `/artists/` and a catalog of size
`N`, `InfoAboutArtist` returns normally, and the status is 400 exactly when the
`id` parameter is missing, `strconv.Atoi` rejects it, or its value is outside
`1..N`. For an `id` written in decimal (`%d` of `n`), that is exactly when
`n = 0` or `n > N`: id `0` and id `N+1` give 400, every id in `1..N` does not. -/
theorem C1_InfoAboutArtist_bad_request (world : World) (g : Globals) (r : Request)
    (hm : r.Method = "GET") (hp : r.URL.Path = "/artists/") :
    (∃ w2, InfoAboutArtist world g NewRecorder r = .ok w2) ∧
    (responseCode (InfoAboutArtist world g NewRecorder r) = some 400 ↔
      (r.URL.Query.find? (fun kv => kv.1 == "id") = none ∨
        (Atoi (ValuesGet r.URL.Query "id")).2 ≠ none ∨
        (Atoi (ValuesGet r.URL.Query "id")).1 < 1 ∨
        (Atoi (ValuesGet r.URL.Query "id")).1 > (g.artists.length : Int))) ∧
    (∀ n : Nat, n < 2 ^ 63 → ValuesGet r.URL.Query "id" = formatInt (n : Int) →
      (responseCode (InfoAboutArtist world g NewRecorder r) = some 400 ↔
        (n = 0 ∨ n > g.artists.length))) := by
  obtain ⟨hok, hiff⟩ := InfoAboutArtist_400_iff world g r hm hp
  refine ⟨hok, ?_, ?_⟩
  · rw [hiff]
    constructor
    · rintro (h | h | h)
      · exact Or.inr (Or.inr (Or.inl (by omega)))
      · exact Or.inr (Or.inr (Or.inr h))
      · exact Or.inr (Or.inl h)
    · rintro (h | h | h | h)
      · rw [ValuesGet_missing _ _ h, Atoi_empty]
        exact Or.inl (le_refl 0)
      · exact Or.inr (Or.inr h)
      · exact Or.inl (by omega)
      · exact Or.inr (Or.inl h)
  · intro n hn hq
    rw [hiff, hq, Atoi_formatInt n hn]
    simp only [ne_eq, not_true_eq_false, or_false]
    omega

/-- C1 at the requests of `TestInfoAboutArtist`: with the two-artist catalog,
`id=0` is answered 400. -/
theorem C1_InfoAboutArtist_bad_request_witness :
    (getRequest "/artists/" [("id", "0")]).Method = "GET" ∧
    (getRequest "/artists/" [("id", "0")]).URL.Path = "/artists/" ∧
    responseCode (InfoAboutArtist testWorld testGlobals NewRecorder
      (getRequest "/artists/" [("id", "0")])) = some 400 :=
  ⟨by decide, by decide,
    (C1_InfoAboutArtist_bad_request testWorld testGlobals (getRequest "/artists/" [("id", "0")])
      (by decide) (by decide)).2.1.mpr (Or.inr (Or.inr (Or.inl (by decide))))⟩

/-- C2: for every index `i` of the catalog and every request `GET /artists/`
whose `id` parses to `i + 1`, when the three fetches succeed and the details
template is loaded and executes without error, `InfoAboutArtist` leaves exactly
what the template writes for the view model made of `artists[i]` and the three
results fetched from that artist's own URLs, with status 200. -/
theorem C2_InfoAboutArtist_success (world : World) (g : Globals) (r : Request)
    (i : Nat) (hi : i < g.artists.length)
    (hm : r.Method = "GET") (hp : r.URL.Path = "/artists/")
    (hid : Atoi (ValuesGet r.URL.Query "id") = ((i : Int) + 1, none))
    (locations : Loc) (dates : Date) (rel : Relation) (t : Template)
    (hl : FetchLocations world g.artists[i].Locations = .ok locations)
    (hd : FetchDates world g.artists[i].ConcertDates = .ok dates)
    (hr : FetchRelation world g.artists[i].Relations = .ok rel)
    (ht : g.templates "details.html" = some t)
    (hx : (t.execute { Title := "Artist Details", Artist := g.artists[i],
                       Locations := locations, Dates := dates, Concerts := rel }).2 = false) :
    InfoAboutArtist world g NewRecorder r =
      .ok (t.Execute NewRecorder { Title := "Artist Details", Artist := g.artists[i],
                                   Locations := locations, Dates := dates, Concerts := rel }).1 ∧
    responseCode (InfoAboutArtist world g NewRecorder r) = some 200 ∧
    responseBody (InfoAboutArtist world g NewRecorder r) =
      some (String.join (t.execute { Title := "Artist Details", Artist := g.artists[i],
                                     Locations := locations, Dates := dates, Concerts := rel }).1) := by
  have e : InfoAboutArtist world g NewRecorder r =
      .ok (t.Execute NewRecorder { Title := "Artist Details", Artist := g.artists[i],
                                   Locations := locations, Dates := dates, Concerts := rel }).1 := by
    rw [InfoAboutArtist_valid world g NewRecorder r i hi hm hp hid]
    simp only [hl, hd, hr]
    exact renderTemplate_ok world g NewRecorder "details.html" _ t ht hx
  refine ⟨e, ?_, ?_⟩
  · rw [e]
    simp only [responseCode]
    rw [Execute_Code_fresh t NewRecorder _ rfl rfl]
  · rw [e]
    simp only [responseBody]
    rw [Execute_Body]
    simp [NewRecorder]

/-- C2 at the request of `TestInfoAboutArtist`: `GET /artists/?id=1` over the
test catalog is answered 200 with the page of "Test Artist". -/
theorem C2_InfoAboutArtist_success_witness :
    0 < testGlobals.artists.length ∧
    (getRequest "/artists/" [("id", "1")]).Method = "GET" ∧
    (getRequest "/artists/" [("id", "1")]).URL.Path = "/artists/" ∧
    Atoi (ValuesGet (getRequest "/artists/" [("id", "1")]).URL.Query "id") =
      (((0 : Nat) : Int) + 1, none) ∧
    testGlobals.templates "details.html" = some pageTemplate ∧
    responseCode (InfoAboutArtist testWorld testGlobals NewRecorder
      (getRequest "/artists/" [("id", "1")])) = some 200 :=
  ⟨by decide, by decide, by decide, by decide, rfl,
    (C2_InfoAboutArtist_success testWorld testGlobals (getRequest "/artists/" [("id", "1")])
      0 (by decide) (by decide) (by decide) (by decide)
      { Locations := ["london-uk"] } { Dates := ["01-01-2020"] }
      { DatesLocation := [("london-uk", ["01-01-2020"])] } pageTemplate
      rfl rfl rfl rfl rfl).2.1⟩

/-- C3: for every valid artist id, if at least one of the three fetches fails,
`InfoAboutArtist` does exactly what `ErrorPage(w, 500)` does on the fresh
response: the status is 500, and the outcome is the same whatever templates are
loaded, so the details template is not rendered. -/
theorem C3_InfoAboutArtist_fetch_failure (world : World) (g : Globals) (r : Request)
    (i : Nat) (hi : i < g.artists.length)
    (hm : r.Method = "GET") (hp : r.URL.Path = "/artists/")
    (hid : Atoi (ValuesGet r.URL.Query "id") = ((i : Int) + 1, none))
    (hfail : (∃ e, FetchLocations world g.artists[i].Locations = .error e) ∨
      (∃ e, FetchDates world g.artists[i].ConcertDates = .error e) ∨
      (∃ e, FetchRelation world g.artists[i].Relations = .error e)) :
    InfoAboutArtist world g NewRecorder r = ErrorPage world NewRecorder 500 ∧
    responseCode (InfoAboutArtist world g NewRecorder r) = some 500 ∧
    (∀ templates : String → Option Template,
      InfoAboutArtist world { templates := templates, artists := g.artists } NewRecorder r =
        ErrorPage world NewRecorder 500) := by
  have key : ∀ g2 : Globals, g2.artists = g.artists →
      InfoAboutArtist world g2 NewRecorder r = ErrorPage world NewRecorder 500 := by
    intro g2 hg
    have hi2 : i < g2.artists.length := by rw [hg]; exact hi
    have ha : g2.artists[i] = g.artists[i] := by simp [hg]
    rw [InfoAboutArtist_valid world g2 NewRecorder r i hi2 hm hp hid, ha]
    rcases hfail with ⟨e, h⟩ | ⟨e, h⟩ | ⟨e, h⟩
    · rw [h]
    · rw [h]
      cases FetchLocations world g.artists[i].Locations <;> rfl
    · rw [h]
      cases FetchLocations world g.artists[i].Locations with
      | error _ => rfl
      | ok _ => cases FetchDates world g.artists[i].ConcertDates <;> rfl
  refine ⟨key g rfl, ?_, fun templates => key _ rfl⟩
  obtain ⟨w5, e5, _, c5⟩ := ErrorPage_fresh world NewRecorder 500 rfl (by decide) (by decide)
  rw [key g rfl, e5]
  simp [responseCode, c5]

/-- C3 with the dates endpoint down: `GET /artists/?id=1` is answered 500. -/
theorem C3_InfoAboutArtist_fetch_failure_witness :
    0 < testGlobals.artists.length ∧
    (getRequest "/artists/" [("id", "1")]).Method = "GET" ∧
    (getRequest "/artists/" [("id", "1")]).URL.Path = "/artists/" ∧
    Atoi (ValuesGet (getRequest "/artists/" [("id", "1")]).URL.Query "id") =
      (((0 : Nat) : Int) + 1, none) ∧
    FetchDates datesDownWorld testArtist.ConcertDates = .error "failed to fetch data" ∧
    responseCode (InfoAboutArtist datesDownWorld testGlobals NewRecorder
      (getRequest "/artists/" [("id", "1")])) = some 500 :=
  ⟨by decide, by decide, by decide, by decide, rfl,
    (C3_InfoAboutArtist_fetch_failure datesDownWorld testGlobals
      (getRequest "/artists/" [("id", "1")]) 0 (by decide) (by decide) (by decide) (by decide)
      (Or.inr (Or.inl ⟨"failed to fetch data", rfl⟩))).2.1⟩

/-- C4: each of the four handlers answers a request whose method is not `GET`
with what `ErrorPage(w, 405)` leaves on the fresh response, status 405, whatever
the path, the query, the catalog, the templates and the file system are. -/
theorem C4_wrong_method_405 (world : World) (g : Globals) (r : Request)
    (hm : r.Method ≠ "GET") :
    (MainPage world g NewRecorder r = ErrorPage world NewRecorder 405 ∧
      responseCode (MainPage world g NewRecorder r) = some 405) ∧
    (InfoAboutArtist world g NewRecorder r = ErrorPage world NewRecorder 405 ∧
      responseCode (InfoAboutArtist world g NewRecorder r) = some 405) ∧
    (SearchPage world g NewRecorder r = ErrorPage world NewRecorder 405 ∧
      responseCode (SearchPage world g NewRecorder r) = some 405) ∧
    (ServeStatic world NewRecorder r = ErrorPage world NewRecorder 405 ∧
      responseCode (ServeStatic world NewRecorder r) = some 405) := by
  obtain ⟨w5, e5, _, c5⟩ := ErrorPage_fresh world NewRecorder 405 rfl (by decide) (by decide)
  have hcode : responseCode (ErrorPage world NewRecorder 405) = some 405 := by
    rw [e5]; simp [responseCode, c5]
  have hcheck : ∀ path : String,
      checkMethodAndPath world NewRecorder r "GET" path = .ok (false, w5) := by
    intro path
    simp [checkMethodAndPath, hm, e5]
  have h1 : MainPage world g NewRecorder r = ErrorPage world NewRecorder 405 := by
    simp only [MainPage, hcheck, e5]
  have h2 : InfoAboutArtist world g NewRecorder r = ErrorPage world NewRecorder 405 := by
    simp only [InfoAboutArtist, hcheck, e5]
  have h3 : SearchPage world g NewRecorder r = ErrorPage world NewRecorder 405 := by
    simp only [SearchPage, hcheck, e5]
  have h4 : ServeStatic world NewRecorder r = ErrorPage world NewRecorder 405 := by
    simp only [ServeStatic, hm, ne_eq, not_false_eq_true, if_true]
  exact ⟨⟨h1, by rw [h1]; exact hcode⟩, ⟨h2, by rw [h2]; exact hcode⟩,
    ⟨h3, by rw [h3]; exact hcode⟩, ⟨h4, by rw [h4]; exact hcode⟩⟩

/-- C4 at the `POST` requests of the tests: `POST /artists/?id=1` is answered 405. -/
theorem C4_wrong_method_405_witness :
    ({ Method := "POST", URL := { Path := "/artists/", Query := [("id", "1")] } } :
      Request).Method ≠ "GET" ∧
    responseCode (InfoAboutArtist testWorld testGlobals NewRecorder
      { Method := "POST", URL := { Path := "/artists/", Query := [("id", "1")] } }) =
      some 405 :=
  ⟨by decide,
    (C4_wrong_method_405 testWorld testGlobals
      { Method := "POST", URL := { Path := "/artists/", Query := [("id", "1")] } }
      (by decide)).2.1.2⟩

/-- C5: `checkMethodAndPath` always returns; it returns `true` exactly when the
request method equals `method` and the request path is string-equal to `path`,
and then the response is untouched; when the method matches and the path
differs it returns `false` after `ErrorPage(w, 404)`, which on a response whose
header is not written yet sets status 404. -/
theorem C5_checkMethodAndPath (world : World) (w : ResponseWriter) (r : Request)
    (method path : String) (hw : w.wroteHeader = false) :
    (∃ b w2, checkMethodAndPath world w r method path = .ok (b, w2)) ∧
    ((∃ w2, checkMethodAndPath world w r method path = .ok (true, w2)) ↔
      (r.Method = method ∧ r.URL.Path = path)) ∧
    (∀ w2, checkMethodAndPath world w r method path = .ok (true, w2) → w2 = w) ∧
    (r.Method = method → r.URL.Path ≠ path →
      ∃ w2, checkMethodAndPath world w r method path = .ok (false, w2) ∧
        ErrorPage world w 404 = .ok w2 ∧ w2.Code = 404) := by
  by_cases hm : r.Method = method
  · by_cases hp : r.URL.Path = path
    · have e := checkMethodAndPath_match world w r method path hm hp
      rw [e]
      refine ⟨⟨true, w, rfl⟩, ⟨fun _ => ⟨hm, hp⟩, fun _ => ⟨w, rfl⟩⟩, ?_, fun _ h => absurd hp h⟩
      intro w2 h
      simp only [Except.ok.injEq, Prod.mk.injEq, true_and] at h
      exact h.symm
    · obtain ⟨w4, e, e4, c⟩ := checkMethodAndPath_path world w r method path hm hp hw
      rw [e]
      refine ⟨⟨false, w4, rfl⟩, ⟨?_, fun h => absurd h.2 hp⟩, ?_, fun _ _ => ⟨w4, rfl, e4, c⟩⟩
      · rintro ⟨w2, h⟩
        simp at h
      · intro w2 h
        simp at h
  · obtain ⟨w5, e, _, _⟩ := checkMethodAndPath_method world w r method path hm hw
    rw [e]
    refine ⟨⟨false, w5, rfl⟩, ⟨?_, fun h => absurd h.1 hm⟩, ?_, fun h => absurd h hm⟩
    · rintro ⟨w2, h⟩
      simp at h
    · intro w2 h
      simp at h

/-- C5 at a trailing slash: `GET /test/` checked against `GET /test` is refused with 404. -/
theorem C5_checkMethodAndPath_witness :
    NewRecorder.wroteHeader = false ∧
    ∃ w2, checkMethodAndPath testWorld NewRecorder (getRequest "/test/" []) "GET" "/test" =
      .ok (false, w2) ∧ ErrorPage testWorld NewRecorder 404 = .ok w2 ∧ w2.Code = 404 :=
  ⟨rfl, (C5_checkMethodAndPath testWorld NewRecorder (getRequest "/test/" []) "GET" "/test"
    rfl).2.2.2 (by decide) (by decide)⟩

/-! ## The search page: `SearchPage` -/

theorem hasPrefixChars_iff (s p : List Char) : hasPrefixChars s p = true ↔ List.IsPrefix p s := by
  induction p generalizing s with
  | nil => simp [hasPrefixChars]
  | cons d p ih =>
    cases s with
    | nil => simp [hasPrefixChars]
    | cons c s =>
      simp only [hasPrefixChars, Bool.and_eq_true, beq_iff_eq, ih, List.cons_prefix_cons]
      exact ⟨fun h => ⟨h.1.symm, h.2⟩, fun h => ⟨h.1.symm, h.2⟩⟩

/-- The function `strings.Contains` holds exactly when `substr` is a contiguous
part of `s`. -/
theorem containsChars_iff (s p : List Char) : containsChars s p = true ↔ List.IsInfix p s := by
  induction s with
  | nil =>
    simp only [containsChars, hasPrefixChars_iff, List.prefix_nil, List.infix_nil]
  | cons c s ih =>
    simp only [containsChars, Bool.or_eq_true, hasPrefixChars_iff, ih, List.infix_cons_iff]

theorem Contains_iff (s substr : String) :
    Contains s substr = true ↔ ∃ pre post, s.data = pre ++ substr.data ++ post := by
  rw [Contains, containsChars_iff]
  constructor
  · rintro ⟨pre, post, h⟩
    exact ⟨pre, post, h.symm⟩
  · rintro ⟨pre, post, h⟩
    exact ⟨pre, post, h.symm⟩

theorem foldl_append_filter (p : Artist → Bool) (artists acc : List Artist) :
    artists.foldl (fun results artist => if p artist then results ++ [artist] else results) acc =
      acc ++ artists.filter p := by
  induction artists generalizing acc with
  | nil => simp
  | cons a as ih =>
    simp only [List.foldl, ih, List.filter_cons]
    by_cases h : p a = true <;> simp [h]

/-- The loop of `SearchPage` is the filter of the catalog by the match test. -/
theorem searchLoop_eq_filter (world : World) (artists : List Artist) (query : String) :
    searchLoop world artists query =
      artists.filter (fun a => Contains (ToLower world a.Name) (ToLower world query)) := by
  have h := foldl_append_filter
    (fun a => Contains (ToLower world a.Name) (ToLower world query)) artists []
  simpa [searchLoop] using h

theorem SearchPage_query (world : World) (g : Globals) (w : ResponseWriter) (r : Request)
    (hm : r.Method = "GET") (hp : r.URL.Path = "/search/")
    (hq : ValuesGet r.URL.Query "q" ≠ "") :
    SearchPage world g w r =
      renderTemplate world g w "search.html"
        (searchData (ValuesGet r.URL.Query "q")
          (searchLoop world g.artists (ValuesGet r.URL.Query "q"))) := by
  simp only [SearchPage, checkMethodAndPath_match world w r "GET" "/search/" hm hp]
  rw [if_neg hq]

theorem SearchPage_empty_query (world : World) (g : Globals) (w : ResponseWriter) (r : Request)
    (hm : r.Method = "GET") (hp : r.URL.Path = "/search/")
    (hq : ValuesGet r.URL.Query "q" = "") :
    SearchPage world g w r = ErrorPage world w 400 := by
  simp only [SearchPage, checkMethodAndPath_match world w r "GET" "/search/" hm hp]
  rw [if_pos hq]

theorem searchData_Results (query : String) (results : List Artist) :
    (searchData query results).Results = results ∧ (searchData query results).Query = query := by
  unfold searchData
  split_ifs <;> exact ⟨rfl, rfl⟩

/-- C6: for every catalog and every non-empty query `q`, `SearchPage` renders the
search template on a view model whose result list is the catalog filtered, in
catalog order, to the artists whose lower-cased name contains the lower-cased
`q` as a contiguous substring. -/
theorem C6_SearchPage_results (world : World) (g : Globals) (w : ResponseWriter) (r : Request)
    (q : String) (hm : r.Method = "GET") (hp : r.URL.Path = "/search/")
    (hq : ValuesGet r.URL.Query "q" = q) (hne : q ≠ "") :
    SearchPage world g w r =
      renderTemplate world g w "search.html" (searchData q (searchLoop world g.artists q)) ∧
    (searchData q (searchLoop world g.artists q)).Results = searchLoop world g.artists q ∧
    searchLoop world g.artists q =
      g.artists.filter (fun a => Contains (ToLower world a.Name) (ToLower world q)) ∧
    (∀ a, a ∈ searchLoop world g.artists q ↔
      a ∈ g.artists ∧
        ∃ pre post, (ToLower world a.Name).data = pre ++ (ToLower world q).data ++ post) ∧
    List.Sublist (searchLoop world g.artists q) g.artists := by
  subst hq
  refine ⟨SearchPage_query world g w r hm hp hne, (searchData_Results _ _).1,
    searchLoop_eq_filter world g.artists _, ?_, ?_⟩
  · intro a
    rw [searchLoop_eq_filter, List.mem_filter, Contains_iff]
  · rw [searchLoop_eq_filter]
    exact List.filter_sublist _

/-- C6 at the data of `TestSearchPage`: `q = "test"` over "Test Artist" and
"Another Artist" gives exactly "Test Artist". -/
theorem C6_SearchPage_results_witness :
    (getRequest "/search/" [("q", "test")]).Method = "GET" ∧
    (getRequest "/search/" [("q", "test")]).URL.Path = "/search/" ∧
    ValuesGet (getRequest "/search/" [("q", "test")]).URL.Query "q" = "test" ∧
    "test" ≠ "" ∧
    testGlobals.artists = [testArtist, anotherArtist] ∧
    searchLoop testWorld testGlobals.artists "test" = [testArtist] :=
  ⟨by decide, by decide, by decide, by decide, rfl,
    (C6_SearchPage_results testWorld testGlobals NewRecorder
      (getRequest "/search/" [("q", "test")]) "test"
      (by decide) (by decide) (by decide) (by decide)).2.2.1.trans (by decide)⟩

/-- C7: for a `GET` request to the exact path `/search/`, `SearchPage` returns
normally; the status is 400 exactly when the `q` parameter is missing or empty;
for a non-empty `q` the handler goes on to render the search template on the
view model built from the query and the loop's results. -/
theorem C7_SearchPage_bad_request (world : World) (g : Globals) (r : Request)
    (hm : r.Method = "GET") (hp : r.URL.Path = "/search/") :
    (∃ w2, SearchPage world g NewRecorder r = .ok w2) ∧
    (responseCode (SearchPage world g NewRecorder r) = some 400 ↔
      (r.URL.Query.find? (fun kv => kv.1 == "q") = none ∨ ValuesGet r.URL.Query "q" = "")) ∧
    (ValuesGet r.URL.Query "q" ≠ "" →
      responseCode (SearchPage world g NewRecorder r) ≠ some 400 ∧
      SearchPage world g NewRecorder r =
        renderTemplate world g NewRecorder "search.html"
          (searchData (ValuesGet r.URL.Query "q")
            (searchLoop world g.artists (ValuesGet r.URL.Query "q")))) := by
  have hmiss : (r.URL.Query.find? (fun kv => kv.1 == "q") = none ∨
      ValuesGet r.URL.Query "q" = "") ↔ ValuesGet r.URL.Query "q" = "" :=
    ⟨fun h => h.elim (ValuesGet_missing _ _) id, Or.inr⟩
  rw [hmiss]
  by_cases hq : ValuesGet r.URL.Query "q" = ""
  · obtain ⟨w4, e4, _, c4⟩ := ErrorPage_fresh world NewRecorder 400 rfl (by decide) (by decide)
    rw [SearchPage_empty_query world g NewRecorder r hm hp hq, e4]
    exact ⟨⟨w4, rfl⟩, by simp [responseCode, c4, hq], fun h => absurd hq h⟩
  · have e := SearchPage_query world g NewRecorder r hm hp hq
    obtain ⟨w2, e2, c2⟩ := renderTemplate_fresh world g NewRecorder "search.html"
      (searchData (ValuesGet r.URL.Query "q")
        (searchLoop world g.artists (ValuesGet r.URL.Query "q"))) rfl rfl
    have hne : responseCode (SearchPage world g NewRecorder r) ≠ some 400 := by
      rw [e, e2]
      simp only [responseCode, ne_eq, Option.some.injEq]
      rcases c2 with c | c | c <;> rw [c] <;> decide
    refine ⟨⟨w2, by rw [e, e2]⟩, ?_, fun _ => ⟨hne, e⟩⟩
    simp only [hq, iff_false]
    exact hne

/-- C7 at the empty-query request of `TestSearchPage`: `GET /search/` without `q` is answered 400. -/
theorem C7_SearchPage_bad_request_witness :
    (getRequest "/search/" []).Method = "GET" ∧
    (getRequest "/search/" []).URL.Path = "/search/" ∧
    responseCode (SearchPage testWorld testGlobals NewRecorder (getRequest "/search/" [])) =
      some 400 :=
  ⟨by decide, by decide,
    (C7_SearchPage_bad_request testWorld testGlobals (getRequest "/search/" [])
      (by decide) (by decide)).2.1.mpr (Or.inl (by decide))⟩

/-- C8: for every catalog and every non-empty query `q` whose lower-cased form
is contained in no lower-cased artist name, `SearchPage` renders the search
template on the view model with title "Search Results", the query `q`
unchanged, an empty result list and the non-empty message "No artists found
matching your query."; when the search template is loaded and executes without
error the response is exactly what it writes, with status 200. -/
theorem C8_SearchPage_no_match (world : World) (g : Globals) (r : Request) (q : String)
    (hm : r.Method = "GET") (hp : r.URL.Path = "/search/")
    (hq : ValuesGet r.URL.Query "q" = q) (hne : q ≠ "")
    (hno : ∀ a ∈ g.artists,
      ¬ ∃ pre post, (ToLower world a.Name).data = pre ++ (ToLower world q).data ++ post) :
    ∃ data : TemplateData,
      data = { Title := "Search Results", Query := q, Results := [],
               Message := "No artists found matching your query." } ∧
      data.Results = [] ∧ data.Query = q ∧ data.Message ≠ "" ∧
      SearchPage world g NewRecorder r =
        renderTemplate world g NewRecorder "search.html" data ∧
      (∀ t : Template, g.templates "search.html" = some t → (t.execute data).2 = false →
        SearchPage world g NewRecorder r = .ok (t.Execute NewRecorder data).1 ∧
        responseCode (SearchPage world g NewRecorder r) = some 200 ∧
        responseBody (SearchPage world g NewRecorder r) =
          some (String.join (t.execute data).1)) := by
  subst hq
  have hloop : searchLoop world g.artists (ValuesGet r.URL.Query "q") = [] := by
    rw [searchLoop_eq_filter, List.filter_eq_nil_iff]
    intro a ha hc
    exact hno a ha ((Contains_iff _ _).1 hc)
  have hdata : searchData (ValuesGet r.URL.Query "q") [] =
      { Title := "Search Results", Query := ValuesGet r.URL.Query "q", Results := [],
        Message := "No artists found matching your query." } := by
    simp [searchData]
  have e := SearchPage_query world g NewRecorder r hm hp hne
  rw [hloop, hdata] at e
  refine ⟨_, rfl, rfl, rfl,
    (show ("No artists found matching your query." : String) ≠ "" by decide), e, ?_⟩
  intro t ht hx
  have e2 := renderTemplate_ok world g NewRecorder "search.html" _ t ht hx
  rw [e, e2]
  refine ⟨rfl, ?_, ?_⟩
  · simp only [responseCode]
    rw [Execute_Code_fresh t NewRecorder _ rfl rfl]
  · simp only [responseBody]
    rw [Execute_Body]
    simp [NewRecorder]

/-- C8 at the no-result request of `TestSearchPage`: `q = "nonexistent"` over the
test catalog is answered 200. -/
theorem C8_SearchPage_no_match_witness :
    (getRequest "/search/" [("q", "nonexistent")]).Method = "GET" ∧
    (getRequest "/search/" [("q", "nonexistent")]).URL.Path = "/search/" ∧
    ValuesGet (getRequest "/search/" [("q", "nonexistent")]).URL.Query "q" = "nonexistent" ∧
    "nonexistent" ≠ "" ∧
    (∀ a ∈ testGlobals.artists,
      Contains (ToLower testWorld a.Name) (ToLower testWorld "nonexistent") = false) ∧
    responseCode (SearchPage testWorld testGlobals NewRecorder
      (getRequest "/search/" [("q", "nonexistent")])) = some 200 :=
  ⟨by decide, by decide, by decide, by decide, by decide,
    by
      obtain ⟨data, hd, _, _, _, _, h⟩ := C8_SearchPage_no_match testWorld testGlobals
        (getRequest "/search/" [("q", "nonexistent")]) "nonexistent"
        (by decide) (by decide) (by decide) (by decide)
        (fun a ha hc => by
          have hall : ∀ b ∈ testGlobals.artists,
              Contains (ToLower testWorld b.Name) (ToLower testWorld "nonexistent") = false := by
            decide
          rw [← Contains_iff, hall a ha] at hc
          exact Bool.false_ne_true hc)
      subst hd
      exact (h pageTemplate rfl rfl).2.1⟩

/-! ## The error page: `ErrorPage` -/

/-- `ErrorPage` with a code `WriteHeader` accepts, or on a response whose header is
already written: it returns normally; the status is the code unless a status was
already written; the body grows by the template output and the fallback line. -/
theorem ErrorPage_spec (world : World) (w : ResponseWriter) (code : Int)
    (h : w.wroteHeader = true ∨ (100 ≤ code ∧ code ≤ 999)) :
    ∃ w2, ErrorPage world w code = .ok w2 ∧
      w2.Code = (if w.wroteHeader = true then w.Code else code) ∧
      (world.errorsTemplate = none →
        w2.Body = w.Body ++ (ErrorPage.plainText code ++ "\n")) ∧
      (∀ t, world.errorsTemplate = some t → (t.execute (ErrorPage.data code)).2 = true →
        w2.Body = w.Body ++ String.join (t.execute (ErrorPage.data code)).1 ++
          (ErrorPage.plainText code ++ "\n")) ∧
      (∀ t, world.errorsTemplate = some t → (t.execute (ErrorPage.data code)).2 = false →
        w2.Body = w.Body ++ String.join (t.execute (ErrorPage.data code)).1) := by
  by_cases hw : w.wroteHeader = true
  · obtain ⟨w2, e, _, c, b⟩ := ErrorPage_of_headerWritten world w code hw _ rfl
    refine ⟨w2, ?_, by simpa [hw] using c, b⟩
    rw [← e]
    simp only [ErrorPage, WriteHeader_wrote w code hw]
  · have hw2 : w.wroteHeader = false := by simpa using hw
    have hc : 100 ≤ code ∧ code ≤ 999 := h.resolve_left hw
    obtain ⟨w2, e, _, c, b⟩ :=
      ErrorPage_of_headerWritten world (afterHeader w code) code rfl _ rfl
    refine ⟨w2, ?_, by simpa [hw, afterHeader] using c, by simpa [afterHeader] using b⟩
    rw [← e]
    simp only [ErrorPage, WriteHeader_fresh w code hw2 hc.1 hc.2]

/-- C9 fails at 403: the code is none of 400, 404, 405, yet the phrase is
"Forbidden", not "Internal Server Error"; the plain-text fallback shows it. -/
theorem C9_ErrorPage_message_counterexample :
    (403 : Int) ≠ 400 ∧ (403 : Int) ≠ 404 ∧ (403 : Int) ≠ 405 ∧
    ErrorPage.message 403 = "Forbidden" ∧
    ErrorPage.message 403 ≠ "Internal Server Error" ∧
    responseBody (ErrorPage testWorld NewRecorder 403) = some "403 - Forbidden\n" := by
  decide

/-- C9, amended: the phrase `ErrorPage` uses is "Bad Request" for 400, "Not Found"
for 404, "Method Not Allowed" for 405, "Forbidden" for 403 and "Internal Server
Error" for every other code; it is the `Message` of the view model handed to
the error template and the phrase of the plain-text fallback. -/
theorem C9_ErrorPage_message (c : Int) :
    (c = 400 → ErrorPage.message c = "Bad Request") ∧
    (c = 404 → ErrorPage.message c = "Not Found") ∧
    (c = 405 → ErrorPage.message c = "Method Not Allowed") ∧
    (c = 403 → ErrorPage.message c = "Forbidden") ∧
    (c ≠ 400 → c ≠ 404 → c ≠ 405 → c ≠ 403 → ErrorPage.message c = "Internal Server Error") ∧
    (ErrorPage.data c).Message = ErrorPage.message c ∧
    ErrorPage.plainText c = formatInt c ++ " - " ++ ErrorPage.message c := by
  refine ⟨?_, ?_, ?_, ?_, ?_, rfl, rfl⟩
  · rintro rfl; rfl
  · rintro rfl; rfl
  · rintro rfl; rfl
  · rintro rfl; rfl
  · intro h1 h2 h3 h4
    simp [ErrorPage.message, h1, h2, h3, h4]

/-- C10 at an error template that writes before it fails: with a template
that writes `<h1>` and then stops with an error, `ErrorPage(w, 500)` on a fresh
response sets status 500 and calls `http.Error`, but the body is
`<h1>500 - Internal Server Error` (and a newline), which does not start with
`500 - Internal Server Error`; on the sibling path, where the template cannot
be loaded, the same call leaves exactly `500 - Internal Server Error` and a
newline. -/
theorem C10_ErrorPage_partial_write :
    brokenErrorsWorld.errorsTemplate.isSome = true ∧
    (brokenTemplate.execute (ErrorPage.data 500)).2 = true ∧
    responseCode (ErrorPage brokenErrorsWorld NewRecorder 500) = some 500 ∧
    responseBody (ErrorPage brokenErrorsWorld NewRecorder 500) =
      some "<h1>500 - Internal Server Error\n" ∧
    ¬ List.IsPrefix "500 - Internal Server Error".data
        "<h1>500 - Internal Server Error\n".data ∧
    testWorld.errorsTemplate.isNone = true ∧
    responseCode (ErrorPage testWorld NewRecorder 500) = some 500 ∧
    responseBody (ErrorPage testWorld NewRecorder 500) =
      some "500 - Internal Server Error\n" := by
  decide

/-- The outcomes of `ErrorPage` for a status code `c` in `100..999`: it returns
normally and the status is `c` unless a status was already written; when the
error template cannot be loaded the body grows by exactly `"<c> - <phrase>"`
and a newline; when its execution fails the body grows by what the template
wrote before failing, followed by that line. On a fresh response the body
therefore starts with `"<c> - <phrase>"` when the template is missing or wrote
nothing before failing. -/
theorem ErrorPage_fallback_outcomes (world : World) (w : ResponseWriter) (c : Int)
    (h1 : 100 ≤ c) (h2 : c ≤ 999) :
    ∃ w2, ErrorPage world w c = .ok w2 ∧
      w2.Code = (if w.wroteHeader = true then w.Code else c) ∧
      (world.errorsTemplate = none →
        w2.Body = w.Body ++ (formatInt c ++ " - " ++ ErrorPage.message c ++ "\n")) ∧
      (∀ t, world.errorsTemplate = some t → (t.execute (ErrorPage.data c)).2 = true →
        w2.Body = w.Body ++ String.join (t.execute (ErrorPage.data c)).1 ++
          (formatInt c ++ " - " ++ ErrorPage.message c ++ "\n")) ∧
      (w = NewRecorder →
        (world.errorsTemplate = none ∨
          ∃ t, world.errorsTemplate = some t ∧ t.execute (ErrorPage.data c) = ([], true)) →
        w2.Code = c ∧
        w2.Body = formatInt c ++ " - " ++ ErrorPage.message c ++ "\n" ∧
        List.IsPrefix (formatInt c ++ " - " ++ ErrorPage.message c).data w2.Body.data) := by
  obtain ⟨w2, e, hc, hn, hf, _⟩ := ErrorPage_spec world w c (Or.inr ⟨h1, h2⟩)
  refine ⟨w2, e, hc, hn, hf, ?_⟩
  intro hw hcase
  subst hw
  have hbody : w2.Body = formatInt c ++ " - " ++ ErrorPage.message c ++ "\n" := by
    rcases hcase with hnone | ⟨t, ht, hx⟩
    · rw [hn hnone]
      simp [NewRecorder, ErrorPage.plainText]
    · rw [hf t ht (by rw [hx])]
      simp [NewRecorder, ErrorPage.plainText, hx, String.join]
  refine ⟨by simpa [NewRecorder] using hc, hbody, ?_⟩
  rw [hbody]
  exact ⟨"\n".data, by simp [String.data_append]⟩

/-- The data of `TestErrorPage`: with the error template missing,
`ErrorPage(w, 404)` on a fresh recorder gives status 404 and the body
`404 - Not Found` followed by a newline. -/
theorem ErrorPage_fallback_at_404 :
    (100 : Int) ≤ 404 ∧ (404 : Int) ≤ 999 ∧
    ∃ w2, ErrorPage testWorld NewRecorder 404 = .ok w2 ∧ w2.Code = 404 ∧
      w2.Body = "404 - Not Found\n" := by
  refine ⟨by decide, by decide, ?_⟩
  obtain ⟨w2, e, _, _, _, h⟩ :=
    ErrorPage_fallback_outcomes testWorld NewRecorder 404 (by decide) (by decide)
  obtain ⟨hc, hb, _⟩ := h rfl (Or.inl rfl)
  exact ⟨w2, e, hc, hb.trans (by decide)⟩

/-! ## Rendering a page: `renderTemplate` -/

/-- C11 at a template that writes before it fails: the template of
`brokenGlobals` is loaded, writes `<h1>` and then stops with an error;
`renderTemplate` calls `ErrorPage(w, 500)`, but on the fresh recorder the status
is the 200 sent with the first write, not 500, and the error text follows the
partial page. -/
theorem C11_renderTemplate_partial_write :
    brokenGlobals.templates "broken.html" = some brokenTemplate ∧
    (brokenTemplate.execute {}).2 = true ∧
    responseCode (renderTemplate testWorld brokenGlobals NewRecorder "broken.html" {}) =
      some 200 ∧
    responseCode (renderTemplate testWorld brokenGlobals NewRecorder "broken.html" {}) ≠
      some 500 ∧
    responseBody (renderTemplate testWorld brokenGlobals NewRecorder "broken.html" {}) =
      some "<h1>500 - Internal Server Error\n" :=
  ⟨rfl, by decide, by decide, by decide, by decide⟩

/-- The outcomes of `renderTemplate` on a fresh response: it always returns; an
unknown template name is answered by `ErrorPage(w, 404)`, status 404; a known
template whose execution fails before it has written anything by
`ErrorPage(w, 500)`, status 500; a known template whose execution fails after
it has written keeps the status 200 already sent, with the error page appended
to what was written; and a known template that executes without error leaves
exactly its output with status 200, whatever the error template is. -/
theorem renderTemplate_outcomes (world : World) (g : Globals) (tmpl : String)
    (data : TemplateData) :
    (∃ w2, renderTemplate world g NewRecorder tmpl data = .ok w2) ∧
    (g.templates tmpl = none →
      renderTemplate world g NewRecorder tmpl data = ErrorPage world NewRecorder 404 ∧
      responseCode (renderTemplate world g NewRecorder tmpl data) = some 404) ∧
    (∀ t, g.templates tmpl = some t → (t.execute data).2 = true →
      ((t.execute data).1 = [] →
        renderTemplate world g NewRecorder tmpl data = ErrorPage world NewRecorder 500 ∧
        responseCode (renderTemplate world g NewRecorder tmpl data) = some 500) ∧
      ((t.execute data).1 ≠ [] →
        renderTemplate world g NewRecorder tmpl data =
          ErrorPage world (t.Execute NewRecorder data).1 500 ∧
        responseCode (renderTemplate world g NewRecorder tmpl data) = some 200)) ∧
    (∀ t, g.templates tmpl = some t → (t.execute data).2 = false →
      renderTemplate world g NewRecorder tmpl data = .ok (t.Execute NewRecorder data).1 ∧
      responseCode (renderTemplate world g NewRecorder tmpl data) = some 200 ∧
      responseBody (renderTemplate world g NewRecorder tmpl data) =
        some (String.join (t.execute data).1) ∧
      ∀ world2 : World,
        renderTemplate world2 g NewRecorder tmpl data =
          renderTemplate world g NewRecorder tmpl data) := by
  refine ⟨?_, ?_, ?_, ?_⟩
  · obtain ⟨w2, e, _⟩ := renderTemplate_fresh world g NewRecorder tmpl data rfl rfl
    exact ⟨w2, e⟩
  · intro hn
    obtain ⟨w4, e4, _, c4⟩ := ErrorPage_fresh world NewRecorder 404 rfl (by decide) (by decide)
    have e : renderTemplate world g NewRecorder tmpl data = ErrorPage world NewRecorder 404 := by
      simp [renderTemplate, hn]
    refine ⟨e, ?_⟩
    rw [e, e4]
    simp [responseCode, c4]
  · intro t ht hx
    have hx2 : (t.Execute NewRecorder data).2 = true := hx
    have e : renderTemplate world g NewRecorder tmpl data =
        ErrorPage world (t.Execute NewRecorder data).1 500 := by
      simp [renderTemplate, ht, hx2]
    constructor
    · intro hnil
      have hw : (t.Execute NewRecorder data).1 = NewRecorder := by
        simp [Template.Execute, hnil]
      obtain ⟨w5, e5, _, c5⟩ := ErrorPage_fresh world NewRecorder 500 rfl (by decide) (by decide)
      rw [e, hw]
      refine ⟨rfl, ?_⟩
      rw [e5]
      simp [responseCode, c5]
    · intro hne
      refine ⟨e, ?_⟩
      rcases Execute_fresh t NewRecorder data rfl with h0 | ⟨h1, h2⟩
      · exfalso
        have hwr : (t.Execute NewRecorder data).1.wroteHeader = true := by
          unfold Template.Execute
          cases hc : (t.execute data).1 with
          | nil => exact absurd hc hne
          | cons c cs =>
            exact (foldl_Write_of_wrote cs (NewRecorder.Write c)
              (Write_wroteHeader NewRecorder c)).1
        rw [h0] at hwr
        exact absurd hwr (by decide)
      · obtain ⟨w2, e2, _, c2⟩ := ErrorPage_wrote world (t.Execute NewRecorder data).1 500 h1
        rw [e, e2]
        simp [responseCode, c2, h2]
  · intro t ht hx
    have e := renderTemplate_ok world g NewRecorder tmpl data t ht hx
    refine ⟨e, ?_, ?_, ?_⟩
    · rw [e]
      simp only [responseCode]
      rw [Execute_Code_fresh t NewRecorder data rfl rfl]
    · rw [e]
      simp only [responseBody]
      rw [Execute_Body]
      simp [NewRecorder]
    · intro world2
      rw [e, renderTemplate_ok world2 g NewRecorder tmpl data t ht hx]

/-! ## The path `ServeStatic` resolves -/

theorem splitSlash_ne_nil (v : List Char) : splitSlash v ≠ [] := by
  cases v with
  | nil => simp [splitSlash]
  | cons c cs =>
    unfold splitSlash
    split
    · simp
    · split_ifs <;> simp

theorem splitSlash_slash (cs : List Char) : splitSlash ('/' :: cs) = [] :: splitSlash cs := by
  cases h : splitSlash cs with
  | nil => exact absurd h (splitSlash_ne_nil cs)
  | cons a t => simp [splitSlash, h]

theorem splitSlash_other (c : Char) (cs h : List Char) (t : List (List Char)) (hc : c ≠ '/')
    (hs : splitSlash cs = h :: t) : splitSlash (c :: cs) = (c :: h) :: t := by
  simp [splitSlash, hs, hc]

/-- Splitting `a/rest` when `a` has no slash. -/
theorem splitSlash_append (a cs : List Char) (ha : '/' ∉ a) :
    splitSlash (a ++ '/' :: cs) = a :: splitSlash cs := by
  induction a with
  | nil => exact splitSlash_slash cs
  | cons c a ih =>
    have hc : c ≠ '/' := fun h => ha (by simp [h])
    have ha2 : '/' ∉ a := fun h => ha (List.mem_cons_of_mem _ h)
    exact splitSlash_other c (a ++ '/' :: cs) a (splitSlash cs) hc (ih ha2)

/-- Without a `..` element `path.Clean` only keeps or drops elements: what was
kept before stays at the bottom of the stack. -/
theorem foldl_cleanStep_no_dotdot (rooted : Bool) (elems out : List (List Char))
    (h : ['.', '.'] ∉ elems) :
    ∃ pre, elems.foldl (cleanStep rooted) out = pre ++ out := by
  induction elems generalizing out with
  | nil => exact ⟨[], rfl⟩
  | cons e es ih =>
    have he : e ≠ ['.', '.'] := fun hh => h (by simp [hh])
    have hes : ['.', '.'] ∉ es := fun hh => h (List.mem_cons_of_mem _ hh)
    simp only [List.foldl]
    by_cases hskip : e = [] ∨ e = ['.']
    · have e1 : cleanStep rooted out e = out := by simp [cleanStep, hskip]
      rw [e1]
      exact ih out hes
    · have e1 : cleanStep rooted out e = e :: out := by simp [cleanStep, hskip, he]
      rw [e1]
      obtain ⟨pre, hp⟩ := ih (e :: out) hes
      exact ⟨pre ++ [e], by rw [hp]; simp⟩

theorem joinSlash_cons (e : List Char) (es : List (List Char)) :
    joinSlash (e :: es) = e ∨ List.IsPrefix (e ++ ['/']) (joinSlash (e :: es)) := by
  cases es with
  | nil => exact Or.inl rfl
  | cons e2 es2 =>
    right
    exact ⟨joinSlash (e2 :: es2), by simp [joinSlash]⟩

/-- A remainder without a `..` element is resolved to `static` or below it. -/
theorem pathJoinStatic_no_dotdot (x : List Char) (h : ['.', '.'] ∉ splitSlash x) :
    pathJoinStatic x = "static".data ∨ List.IsPrefix "static/".data (pathJoinStatic x) := by
  unfold pathJoinStatic
  by_cases hx : x = []
  · left
    simp only [hx, if_true]
    decide
  · simp only [hx, if_false]
    have hsplit : splitSlash ("static".data ++ '/' :: x) = "static".data :: splitSlash x :=
      splitSlash_append "static".data x (by decide)
    obtain ⟨pre, hpre⟩ := foldl_cleanStep_no_dotdot false (splitSlash x) ["static".data] h
    have hfold : (splitSlash ("static".data ++ '/' :: x)).foldl (cleanStep false) [] =
        pre ++ ["static".data] := by
      rw [hsplit, List.foldl]
      have e0 : cleanStep false [] "static".data = ["static".data] := by decide
      rw [e0, hpre]
    have key : ∀ p : List Char, p = "static".data ++ '/' :: x →
        pathClean p = joinSlash ("static".data :: pre.reverse) := by
      intro p hp
      have hfold2 : (splitSlash p).foldl (cleanStep false) [] = pre ++ ["static".data] := by
        rw [hp]; exact hfold
      have hbody : joinSlash ("static".data :: pre.reverse) ≠ [] := by
        rcases joinSlash_cons "static".data pre.reverse with e | ⟨t, e⟩
        · rw [e]; decide
        · rw [← e]; simp
      cases p with
      | nil => simp at hp
      | cons c cs =>
        have hc : c = 's' := by
          have := congrArg List.head? hp
          simpa using this
        have hc2 : ¬ (c = '/') := by rw [hc]; decide
        simp only [pathClean, hfold2, hc2, decide_False, Bool.false_eq_true, if_false,
          List.reverse_append, List.reverse_cons, List.reverse_nil, List.nil_append,
          List.singleton_append, hbody]
    have hclean := key _ rfl
    rw [hclean]
    rcases joinSlash_cons "static".data pre.reverse with e | e
    · exact Or.inl e
    · exact Or.inr e


/-- Turning backslashes into slashes keeps the first element when it has no
backslash, and keeps every later element that has none. -/
theorem splitSlash_map_backslash (v : List Char) :
    ∀ h t h2 t2, splitSlash v = h :: t →
      splitSlash (v.map (fun c => if c = '\\' then '/' else c)) = h2 :: t2 →
      ('\\' ∉ h → h2 = h) ∧ (∀ e ∈ t, '\\' ∉ e → e ∈ t2) := by
  induction v with
  | nil =>
    intro h t h2 t2 hs hm
    simp only [splitSlash, List.map_nil, List.cons.injEq] at hs hm
    obtain ⟨rfl, rfl⟩ := hs
    obtain ⟨rfl, rfl⟩ := hm
    exact ⟨fun _ => rfl, fun e he => by simp at he⟩
  | cons c cs ih =>
    intro h t h2 t2 hs hm
    obtain ⟨h0, t0, hs0⟩ : ∃ h0 t0, splitSlash cs = h0 :: t0 := by
      cases hh : splitSlash cs with
      | nil => exact absurd hh (splitSlash_ne_nil cs)
      | cons a b => exact ⟨a, b, rfl⟩
    obtain ⟨h1, t1, hm0⟩ : ∃ h1 t1,
        splitSlash (cs.map (fun c => if c = '\\' then '/' else c)) = h1 :: t1 := by
      cases hh : splitSlash (cs.map (fun c => if c = '\\' then '/' else c)) with
      | nil => exact absurd hh (splitSlash_ne_nil _)
      | cons a b => exact ⟨a, b, rfl⟩
    obtain ⟨ihA, ihB⟩ := ih h0 t0 h1 t1 hs0 hm0
    by_cases hc : c = '/'
    · subst hc
      rw [splitSlash_slash, hs0] at hs
      have hmap : (if '/' = '\\' then '/' else '/') = '/' := by decide
      rw [List.map_cons, hmap, splitSlash_slash, hm0] at hm
      simp only [List.cons.injEq] at hs hm
      obtain ⟨rfl, rfl⟩ := hs
      obtain ⟨rfl, rfl⟩ := hm
      refine ⟨fun _ => rfl, ?_⟩
      intro e he hb
      rcases List.mem_cons.1 he with rfl | he2
      · rw [ihA hb]; exact List.mem_cons_self _ _
      · exact List.mem_cons_of_mem _ (ihB e he2 hb)
    · rw [splitSlash_other c cs h0 t0 hc hs0] at hs
      simp only [List.cons.injEq] at hs
      obtain ⟨rfl, rfl⟩ := hs
      by_cases hb : c = '\\'
      · subst hb
        have hmap : (if '\\' = '\\' then '/' else '\\') = '/' := by decide
        rw [List.map_cons, hmap, splitSlash_slash, hm0] at hm
        simp only [List.cons.injEq] at hm
        obtain ⟨rfl, rfl⟩ := hm
        refine ⟨fun hn => absurd (List.mem_cons_self _ _) hn, ?_⟩
        intro e he hbe
        exact List.mem_cons_of_mem _ (ihB e he hbe)
      · have hmap : (if c = '\\' then '/' else c) = c := by simp [hb]
        rw [List.map_cons, hmap, splitSlash_other c _ h1 t1 hc hm0] at hm
        simp only [List.cons.injEq] at hm
        obtain ⟨rfl, rfl⟩ := hm
        refine ⟨fun hn => ?_, fun e he hbe => ihB e he hbe⟩
        have hn0 : '\\' ∉ h0 := fun hh => hn (List.mem_cons_of_mem _ hh)
        rw [ihA hn0]

theorem mem_splitSlash_map_backslash (v e : List Char) (he : e ∈ splitSlash v)
    (hb : '\\' ∉ e) : e ∈ splitSlash (v.map (fun c => if c = '\\' then '/' else c)) := by
  cases hs : splitSlash v with
  | nil => exact absurd hs (splitSlash_ne_nil v)
  | cons h t =>
    cases hm : splitSlash (v.map (fun c => if c = '\\' then '/' else c)) with
    | nil => exact absurd hm (splitSlash_ne_nil _)
    | cons h2 t2 =>
      obtain ⟨hA, hB⟩ := splitSlash_map_backslash v h t h2 t2 hs hm
      rw [hs] at he
      rcases List.mem_cons.1 he with rfl | he2
      · rw [hA hb]; exact List.mem_cons_self _ _
      · exact List.mem_cons_of_mem _ (hB e he2 hb)

/-- The elements of the remainder after `/static/` are elements of the request path. -/
theorem mem_splitSlash_trim (p e : List Char)
    (he : e ∈ splitSlash (trimPrefixChars p "/static/".data)) : e ∈ splitSlash p := by
  unfold trimPrefixChars at he
  by_cases hp : hasPrefixChars p "/static/".data = true
  · rw [if_pos hp] at he
    obtain ⟨t, ht⟩ := (hasPrefixChars_iff p "/static/".data).1 hp
    have hdrop : p.drop "/static/".data.length = t := by
      rw [← ht, List.drop_left]
    rw [hdrop] at he
    have hform : p = '/' :: ("static".data ++ '/' :: t) := by rw [← ht]; rfl
    rw [hform, splitSlash_slash, splitSlash_append "static".data t (by decide)]
    exact List.mem_cons_of_mem _ (List.mem_cons_of_mem _ he)
  · rw [if_neg hp] at he
    exact he

theorem containsDotDot_iff (v : String) :
    containsDotDot v = true ↔
      ['.', '.'] ∈ splitSlash (v.data.map (fun c => if c = '\\' then '/' else c)) := by
  simp [containsDotDot, List.any_eq_true]

/-- A request path that `http.ServeFile` accepts is resolved to `static` or below it. -/
theorem staticFilePath_of_no_dotdot (r : Request) (h : containsDotDot r.URL.Path = false) :
    staticFilePath r = "static" ∨ List.IsPrefix "static/".data (staticFilePath r).data := by
  have hno : ['.', '.'] ∉ splitSlash (trimPrefixChars r.URL.Path.data "/static/".data) := by
    intro hmem
    have h1 := mem_splitSlash_trim _ _ hmem
    have h2 := mem_splitSlash_map_backslash _ _ h1 (by decide)
    rw [(containsDotDot_iff r.URL.Path).2 h2] at h
    exact Bool.noConfusion h
  rcases pathJoinStatic_no_dotdot _ hno with e | e
  · left
    unfold staticFilePath
    rw [e]
  · right
    exact e

/-! ## Static files: `ServeStatic` -/

theorem httpError_fresh (w : ResponseWriter) (msg : String) (code : Int)
    (hw : w.wroteHeader = false) (h1 : 100 ≤ code) (h2 : code ≤ 999) :
    ∃ w2, httpError w msg code = .ok w2 ∧ w2.Code = code ∧ w2.Body = w.Body ++ (msg ++ "\n") ∧
      w2.sentHeader = HeaderSet (HeaderSet w.HeaderMap "Content-Type"
        "text/plain; charset=utf-8") "X-Content-Type-Options" "nosniff" := by
  have hr : ¬ (code < 100 ∨ code > 999) := by omega
  refine ⟨_, by simp only [httpError, ResponseWriter.WriteHeader, hw, hr, if_false]; rfl, ?_, ?_, ?_⟩
  · simp [ResponseWriter.Write]
  · simp [ResponseWriter.Write]
  · simp [ResponseWriter.Write]

theorem toHTTPError_code (e : FileError) :
    (toHTTPError e).2 = 404 ∨ (toHTTPError e).2 = 403 ∨ (toHTTPError e).2 = 500 := by
  cases e <;> simp [toHTTPError]

theorem hasSuffixChars_iff (s suffix : List Char) :
    hasSuffixChars s suffix = true ↔ ∃ q, s = q ++ suffix := by
  rw [hasSuffixChars, hasPrefixChars_iff, List.reverse_prefix]
  constructor
  · rintro ⟨q, h⟩
    exact ⟨q, h.symm⟩
  · rintro ⟨q, h⟩
    exact ⟨q, h.symm⟩

/-- Splitting at a slash splits the list of elements. -/
theorem splitSlash_append_slash (a b : List Char) :
    splitSlash (a ++ '/' :: b) = splitSlash a ++ splitSlash b := by
  induction a with
  | nil =>
    rw [List.nil_append, splitSlash_slash]
    rfl
  | cons c a ih =>
    by_cases hc : c = '/'
    · subst hc
      rw [List.cons_append, splitSlash_slash, splitSlash_slash, ih, List.cons_append]
    · obtain ⟨h, t, hs⟩ : ∃ h t, splitSlash a = h :: t := by
        cases hh : splitSlash a with
        | nil => exact absurd hh (splitSlash_ne_nil a)
        | cons x y => exact ⟨x, y, rfl⟩
      rw [List.cons_append, splitSlash_other c a h t hc hs,
        splitSlash_other c (a ++ '/' :: b) h (t ++ splitSlash b) hc (by rw [ih, hs]; rfl)]
      rfl

theorem joinSlash_concat (l : List (List Char)) (e : List Char) :
    ∃ pre, joinSlash (l ++ [e]) = pre ++ e := by
  induction l with
  | nil => exact ⟨[], rfl⟩
  | cons a l ih =>
    obtain ⟨pre, hp⟩ := ih
    cases l with
    | nil => exact ⟨a ++ ['/'], by simp [joinSlash]⟩
    | cons b l2 =>
      refine ⟨a ++ '/' :: pre, ?_⟩
      have : joinSlash (a :: b :: l2 ++ [e]) = a ++ '/' :: joinSlash (b :: l2 ++ [e]) := by
        simp [joinSlash]
      rw [this, hp]
      simp

/-- The function `path.Clean` on a path that does not start with a slash. -/
theorem pathClean_unrooted (c : Char) (cs : List Char) (hc : c ≠ '/') :
    pathClean (c :: cs) =
      if joinSlash ((splitSlash (c :: cs)).foldl (cleanStep false) []).reverse = [] then ['.']
      else joinSlash ((splitSlash (c :: cs)).foldl (cleanStep false) []).reverse := by
  simp [pathClean, hc]

/-- A request path that ends in `/index.html` is resolved to a path that ends in
`index.html`. -/
theorem pathJoinStatic_index (p : List Char) (hp : hasSuffixChars p "/index.html".data = true) :
    ∃ pre, pathJoinStatic (trimPrefixChars p "/static/".data) = pre ++ "index.html".data := by
  obtain ⟨q, hq⟩ := (hasSuffixChars_iff p _).1 hp
  -- the joined path ends in `/index.html` and the remainder is not empty
  have hfull : ∃ y, (trimPrefixChars p "/static/".data) ≠ [] ∧
      "static".data ++ '/' :: trimPrefixChars p "/static/".data =
        y ++ '/' :: "index.html".data := by
    unfold trimPrefixChars
    by_cases hpre : hasPrefixChars p "/static/".data = true
    · rw [if_pos hpre]
      obtain ⟨t, ht⟩ := (hasPrefixChars_iff p "/static/".data).1 hpre
      have hdrop : p.drop "/static/".data.length = t := by rw [← ht, List.drop_left]
      rw [hdrop]
      have e1 : '/' :: ("static".data ++ '/' :: t) = q ++ '/' :: "index.html".data := by
        have : "/static/".data ++ t = q ++ "/index.html".data := by rw [ht, hq]
        exact this
      cases q with
      | nil =>
        exfalso
        have h2 := congrArg (fun l => l.get? 1) e1
        simp at h2
      | cons c q2 =>
        have e2 : "static".data ++ '/' :: t = q2 ++ '/' :: "index.html".data := by
          have := congrArg List.tail e1
          simpa using this
        refine ⟨q2, ?_, e2⟩
        rintro rfl
        have hl := congrArg List.length e2
        simp at hl
    · rw [if_neg hpre]
      refine ⟨"static".data ++ '/' :: q, ?_, ?_⟩
      · rw [hq]
        cases q <;> simp
      · rw [hq]
        simp
  obtain ⟨y, hne, hy⟩ := hfull
  unfold pathJoinStatic
  rw [if_neg hne, hy]
  have hform : ∃ c cs, c ≠ '/' ∧ y ++ '/' :: "index.html".data = c :: cs := by
    have h0 : ("static".data ++ '/' :: trimPrefixChars p "/static/".data) =
        's' :: ("tatic".data ++ '/' :: trimPrefixChars p "/static/".data) := rfl
    exact ⟨'s', _, by decide, by rw [← hy, h0]⟩
  obtain ⟨c, cs, hc, hcs⟩ := hform
  have hfold : (splitSlash (y ++ '/' :: "index.html".data)).foldl (cleanStep false) [] =
      "index.html".data :: (splitSlash y).foldl (cleanStep false) [] := by
    rw [splitSlash_append_slash, List.foldl_append]
    have hs : splitSlash "index.html".data = ["index.html".data] := by decide
    rw [hs]
    simp only [List.foldl]
    have he : ∀ out, cleanStep false out "index.html".data = "index.html".data :: out := by
      intro out
      have h1 : ¬ ("index.html".data = [] ∨ "index.html".data = ['.']) := by decide
      have h2 : ¬ ("index.html".data = ['.', '.']) := by decide
      simp only [cleanStep, h1, h2, if_false]
    exact he _
  obtain ⟨pre, hpre⟩ := joinSlash_concat ((splitSlash y).foldl (cleanStep false) []).reverse
    "index.html".data
  refine ⟨pre, ?_⟩
  have hclean := pathClean_unrooted c cs hc
  rw [← hcs, hfold, List.reverse_cons, hpre] at hclean
  rw [hclean, if_neg]
  intro h
  have := congrArg List.length h
  simp at this

theorem filepathExt_index (pre : List Char) :
    filepathExt (String.mk (pre ++ "index.html".data)) = ".html" := by
  have hr : (pre ++ "index.html".data).reverse =
      'l' :: 'm' :: 't' :: 'h' :: '.' :: ("index".data.reverse ++ pre.reverse) := by
    rw [List.reverse_append]
    rfl
  unfold filepathExt
  simp only [hr]
  rfl

/-- A request path that ends in `/index.html` is resolved to a file with the
extension `.html`, which `ServeStatic` does not serve. -/
theorem staticContentType_index (r : Request)
    (h : hasSuffixChars r.URL.Path.data "/index.html".data = true) :
    staticContentType (filepathExt (staticFilePath r)) = none := by
  obtain ⟨pre, hp⟩ := pathJoinStatic_index r.URL.Path.data h
  unfold staticFilePath
  rw [hp, filepathExt_index]
  decide

/-- The branches of `http.ServeFile` that end before a file is served, on a
response whose header is not written: 400 for a request path with a `..`
element, and the status of `toHTTPError` when the file cannot be opened. -/
theorem ServeFile_fresh (world : World) (w : ResponseWriter) (r : Request) (name : String)
    (hw : w.wroteHeader = false) :
    (containsDotDot r.URL.Path = true →
      ∃ w2, ServeFile world w r name = .ok w2 ∧ w2.Code = 400 ∧
        w2.Body = w.Body ++ "invalid URL path\n") ∧
    (containsDotDot r.URL.Path = false →
      hasSuffixChars r.URL.Path.data "/index.html".data = false →
      ∀ e, world.readFile name = .error e →
        ∃ w2, ServeFile world w r name = .ok w2 ∧ w2.Code = (toHTTPError e).2) ∧
    (containsDotDot r.URL.Path = false →
      hasSuffixChars r.URL.Path.data "/index.html".data = false →
      ∀ content, world.readFile name = .ok content →
        ServeFile world w r name = serveContent world w r name content) := by
  refine ⟨?_, ?_, ?_⟩
  · intro hd
    obtain ⟨w2, e, c, b, _⟩ := httpError_fresh w "invalid URL path" 400 hw (by decide) (by decide)
    exact ⟨w2, by simp [ServeFile, hd, e], c, b⟩
  · intro hd hi e he
    have hc : 100 ≤ (toHTTPError e).2 ∧ (toHTTPError e).2 ≤ 999 := by
      rcases toHTTPError_code e with h | h | h <;> rw [h] <;> decide
    obtain ⟨w2, e2, c, _⟩ := httpError_fresh w (toHTTPError e).1 (toHTTPError e).2 hw hc.1 hc.2
    exact ⟨w2, by simp [ServeFile, hd, hi, he, e2], c⟩
  · intro hd hi content hc
    simp [ServeFile, hd, hi, hc]

/-- The function `serveContent` for a `GET` request without conditional or
`Range` header, on the fresh response on which `ServeStatic` has set the
Content-Type: status 200, the content of the file as body, and that
Content-Type among the headers sent. -/
theorem serveContent_plain (world : World) (r : Request) (name content ct : String)
    (hm : r.Method = "GET") (hc : conditionalOrRange r = false) :
    ∃ w2, serveContent world { NewRecorder with HeaderMap := [("Content-Type", ct)] } r name
        content = .ok w2 ∧
      w2.Code = 200 ∧ w2.Body = content ∧
      ValuesGet w2.sentHeader "Content-Type" = ct ∧
      ValuesGet w2.sentHeader "Accept-Ranges" = "bytes" ∧
      ValuesGet w2.sentHeader "Content-Length" = formatInt (content.utf8ByteSize : Int) := by
  have hhead : ¬ (r.Method = "HEAD") := by rw [hm]; decide
  cases hl : world.lastModified name with
  | none =>
    refine ⟨_, by
      simp [serveContent, hl, hc, NewRecorder, HeaderSet, ValuesGet, ResponseWriter.WriteHeader,
        hhead]
      rfl, ?_, ?_, ?_, ?_, ?_⟩ <;>
    simp [ResponseWriter.Write, ValuesGet]
  | some t =>
    refine ⟨_, by
      simp [serveContent, hl, hc, NewRecorder, HeaderSet, ValuesGet, ResponseWriter.WriteHeader,
        hhead]
      rfl, ?_, ?_, ?_, ?_, ?_⟩ <;>
    simp [ResponseWriter.Write, ValuesGet]

theorem ServeStatic_get (world : World) (w : ResponseWriter) (r : Request)
    (hm : r.Method = "GET") :
    ServeStatic world w r =
      match world.stat (staticFilePath r) with
      | none => ErrorPage world w 404
      | some info =>
        if info.IsDir then ErrorPage world w 404
        else
          match staticContentType (filepathExt (staticFilePath r)) with
          | none => ErrorPage world w 404
          | some ct =>
            ServeFile world { w with HeaderMap := HeaderSet w.HeaderMap "Content-Type" ct } r
              (staticFilePath r) := by
  unfold ServeStatic
  have hne : ¬ r.Method ≠ "GET" := by simp [hm]
  exact (if_neg hne).trans rfl

/-- The `switch ext` of `ServeStatic` is the table of the six allowed extensions. -/
theorem staticContentType_table (ext ct : String) :
    staticContentType ext = some ct ↔
      (ext, ct) ∈ [(".css", "text/css"), (".js", "application/javascript"),
        (".png", "image/png"), (".jpg", "image/jpeg"), (".jpeg", "image/jpeg"),
        (".otf", "font/otf")] := by
  simp only [List.mem_cons, Prod.mk.injEq, List.mem_singleton, List.mem_nil_iff, or_false]
  unfold staticContentType
  constructor
  · intro h
    split_ifs at h with h1 h2 h3 h4 h5
    · simp only [Option.some.injEq] at h; exact Or.inl ⟨h1, h.symm⟩
    · simp only [Option.some.injEq] at h; exact Or.inr (Or.inl ⟨h2, h.symm⟩)
    · simp only [Option.some.injEq] at h; exact Or.inr (Or.inr (Or.inl ⟨h3, h.symm⟩))
    · simp only [Option.some.injEq] at h
      rcases h4 with h4 | h4
      · exact Or.inr (Or.inr (Or.inr (Or.inl ⟨h4, h.symm⟩)))
      · exact Or.inr (Or.inr (Or.inr (Or.inr (Or.inl ⟨h4, h.symm⟩))))
    · simp only [Option.some.injEq] at h
      exact Or.inr (Or.inr (Or.inr (Or.inr (Or.inr ⟨h5, h.symm⟩))))
  · rintro (⟨rfl, rfl⟩ | ⟨rfl, rfl⟩ | ⟨rfl, rfl⟩ | ⟨rfl, rfl⟩ | ⟨rfl, rfl⟩ | ⟨rfl, rfl⟩) <;> decide

theorem staticContentType_none (ext : String) :
    staticContentType ext = none ↔
      ext ∉ [".css", ".js", ".png", ".jpg", ".jpeg", ".otf"] := by
  simp only [List.mem_cons, List.mem_singleton, List.mem_nil_iff, or_false, not_or]
  unfold staticContentType
  constructor
  · intro h
    split_ifs at h with h1 h2 h3 h4 h5
    rw [not_or] at h4
    exact ⟨h1, h2, h3, h4.1, h4.2, h5⟩
  · rintro ⟨h1, h2, h3, h4, h5, h6⟩
    simp [h1, h2, h3, h4, h5, h6]

/-- C12 fails for a request path with a `..` element: `static/style.css` exists,
is a regular file with the allowed extension `.css`, and the request
`GET /static/a/../style.css` resolves to it, yet the answer is 400 with the
text of `http.ServeFile`'s refusal, not the file. -/
theorem C12_ServeStatic_counterexample :
    (getRequest "/static/a/../style.css" []).Method = "GET" ∧
    staticFilePath (getRequest "/static/a/../style.css" []) = "static/style.css" ∧
    staticWorld.stat "static/style.css" = some { IsDir := false } ∧
    filepathExt "static/style.css" = ".css" ∧
    responseCode (ServeStatic staticWorld NewRecorder
      (getRequest "/static/a/../style.css" [])) = some 400 ∧
    responseBody (ServeStatic staticWorld NewRecorder
      (getRequest "/static/a/../style.css" [])) = some "invalid URL path\n" := by
  decide

/-- C12, amended: for every `GET` request to `ServeStatic` on a fresh response,
a resolved path that is missing or a directory is answered 404; otherwise an
extension outside `.css`, `.js`, `.png`, `.jpg`, `.jpeg`, `.otf` is answered
404, and for an extension in that list the handler sets the Content-Type of the
table and hands the request to `http.ServeFile`, which answers 400 when the
request path has a `..` element, 404, 403 or 500 when the file cannot be opened,
and, for a request without `Range`, `If-Match`, `If-None-Match`,
`If-Modified-Since` or `If-Unmodified-Since` header whose file can be opened,
200 with that Content-Type and the content of the file. -/
theorem C12_ServeStatic (world : World) (r : Request) (hm : r.Method = "GET") :
    ((world.stat (staticFilePath r) = none ∨
        world.stat (staticFilePath r) = some { IsDir := true }) →
      ServeStatic world NewRecorder r = ErrorPage world NewRecorder 404 ∧
      responseCode (ServeStatic world NewRecorder r) = some 404) ∧
    (world.stat (staticFilePath r) = some { IsDir := false } →
      (filepathExt (staticFilePath r) ∉ [".css", ".js", ".png", ".jpg", ".jpeg", ".otf"] →
        ServeStatic world NewRecorder r = ErrorPage world NewRecorder 404 ∧
        responseCode (ServeStatic world NewRecorder r) = some 404) ∧
      (∀ ct, (filepathExt (staticFilePath r), ct) ∈
          [(".css", "text/css"), (".js", "application/javascript"), (".png", "image/png"),
            (".jpg", "image/jpeg"), (".jpeg", "image/jpeg"), (".otf", "font/otf")] →
        ServeStatic world NewRecorder r =
          ServeFile world { NewRecorder with HeaderMap := [("Content-Type", ct)] } r
            (staticFilePath r) ∧
        (containsDotDot r.URL.Path = true →
          responseCode (ServeStatic world NewRecorder r) = some 400) ∧
        (containsDotDot r.URL.Path = false →
          ∀ e, world.readFile (staticFilePath r) = .error e →
            responseCode (ServeStatic world NewRecorder r) = some 404 ∨
            responseCode (ServeStatic world NewRecorder r) = some 403 ∨
            responseCode (ServeStatic world NewRecorder r) = some 500) ∧
        (containsDotDot r.URL.Path = false → conditionalOrRange r = false →
          ∀ content, world.readFile (staticFilePath r) = .ok content →
            ∃ w2, ServeStatic world NewRecorder r = .ok w2 ∧
              w2.Code = 200 ∧ w2.Body = content ∧
              ValuesGet w2.sentHeader "Content-Type" = ct))) := by
  have hget := ServeStatic_get world NewRecorder r hm
  obtain ⟨w4, e4, _, c4⟩ := ErrorPage_fresh world NewRecorder 404 rfl (by decide) (by decide)
  have h404 : responseCode (ErrorPage world NewRecorder 404) = some 404 := by
    rw [e4]; simp [responseCode, c4]
  refine ⟨?_, ?_⟩
  · intro hs
    have e : ServeStatic world NewRecorder r = ErrorPage world NewRecorder 404 := by
      rw [hget]
      rcases hs with hs | hs <;> simp [hs]
    exact ⟨e, by rw [e]; exact h404⟩
  · intro hs
    refine ⟨?_, ?_⟩
    · intro hext
      have e : ServeStatic world NewRecorder r = ErrorPage world NewRecorder 404 := by
        rw [hget]
        simp [hs, (staticContentType_none _).2 hext]
      exact ⟨e, by rw [e]; exact h404⟩
    · intro ct hct
      have htab := (staticContentType_table _ ct).2 hct
      have hidx : hasSuffixChars r.URL.Path.data "/index.html".data = false := by
        cases hh : hasSuffixChars r.URL.Path.data "/index.html".data with
        | false => rfl
        | true =>
          rw [staticContentType_index r hh] at htab
          exact Option.noConfusion htab
      have e : ServeStatic world NewRecorder r =
          ServeFile world { NewRecorder with HeaderMap := [("Content-Type", ct)] } r
            (staticFilePath r) := by
        rw [hget]
        simp [hs, htab, HeaderSet, NewRecorder]
      obtain ⟨hdd, hfail, hok⟩ := ServeFile_fresh world
        { NewRecorder with HeaderMap := [("Content-Type", ct)] } r (staticFilePath r) rfl
      refine ⟨e, ?_, ?_, ?_⟩
      · intro hd
        obtain ⟨w2, e2, c2, _⟩ := hdd hd
        rw [e, e2]
        simp [responseCode, c2]
      · intro hd err he
        obtain ⟨w2, e2, c2⟩ := hfail hd hidx err he
        rw [e, e2]
        simp only [responseCode, Option.some.injEq, c2]
        exact toHTTPError_code err
      · intro hd hplain content hc
        obtain ⟨w2, e2, c2, b2, t2, _⟩ :=
          serveContent_plain world r (staticFilePath r) content ct hm hplain
        exact ⟨w2, by rw [e, hok hd hidx content hc, e2], c2, b2, t2⟩

/-- C12 at the request of `TestServeStatic_Success`: `GET /static/style.css`
without headers is answered 200 with Content-Type `text/css` and the content of
the file. -/
theorem C12_ServeStatic_witness :
    (getRequest "/static/style.css" []).Method = "GET" ∧
    staticWorld.stat (staticFilePath (getRequest "/static/style.css" [])) =
      some { IsDir := false } ∧
    ∃ w2, ServeStatic staticWorld NewRecorder (getRequest "/static/style.css" []) = .ok w2 ∧
      w2.Code = 200 ∧ w2.Body = "body{}" ∧ ValuesGet w2.sentHeader "Content-Type" = "text/css" :=
  ⟨by decide, by decide,
    (((C12_ServeStatic staticWorld (getRequest "/static/style.css" []) (by decide)).2
      (by decide)).2 "text/css" (by decide)).2.2.2 (by decide) (by decide) "body{}" rfl⟩

/-- C13 fails for request paths with `..` elements: `/static/../etc/passwd`
resolves to `etc/passwd` and `/static/../secret.css` to `secret.css`, neither
`static` nor below `static/`; the answer to the latter is 400 when a regular
file `secret.css` exists next to `static` and 404 when it does not, so the
handler has called `os.Stat` on a path outside the root. -/
theorem C13_static_path_counterexample :
    staticFilePath (getRequest "/static/../etc/passwd" []) = "etc/passwd" ∧
    staticFilePath (getRequest "/static/../secret.css" []) = "secret.css" ∧
    "secret.css" ≠ "static" ∧
    ¬ List.IsPrefix "static/".data "secret.css".data ∧
    outsideWorld.stat "secret.css" = some { IsDir := false } ∧
    staticWorld.stat "secret.css" = none ∧
    responseCode (ServeStatic outsideWorld NewRecorder
      (getRequest "/static/../secret.css" [])) = some 400 ∧
    responseCode (ServeStatic staticWorld NewRecorder
      (getRequest "/static/../secret.css" [])) = some 404 := by
  decide

/-- C13, amended: for every request path whose remainder after the `/static/`
prefix has no `..` element, and for every request path that `http.ServeFile`
accepts (no `..` element between slashes or backslashes), the resolved path is
`static` itself or begins with `static/`; for a request path `http.ServeFile`
refuses, the answer does not depend on the content of any file, and whenever
the resolved path lies outside the root the answer on a fresh response is 404,
400 or 405: no file outside the root is served. -/
theorem C13_static_path (world : World) (w : ResponseWriter) (r : Request) :
    (['.', '.'] ∉ splitSlash (trimPrefixChars r.URL.Path.data "/static/".data) →
      staticFilePath r = "static" ∨ List.IsPrefix "static/".data (staticFilePath r).data) ∧
    (containsDotDot r.URL.Path = false →
      staticFilePath r = "static" ∨ List.IsPrefix "static/".data (staticFilePath r).data) ∧
    (containsDotDot r.URL.Path = true →
      ∀ readFile2 : String → Except FileError String,
        ServeStatic { world with readFile := readFile2 } w r = ServeStatic world w r) ∧
    (¬ (staticFilePath r = "static" ∨
        List.IsPrefix "static/".data (staticFilePath r).data) →
      responseCode (ServeStatic world NewRecorder r) = some 404 ∨
      responseCode (ServeStatic world NewRecorder r) = some 400 ∨
      responseCode (ServeStatic world NewRecorder r) = some 405) := by
  refine ⟨?_, staticFilePath_of_no_dotdot r, ?_, ?_⟩
  · intro hno
    rcases pathJoinStatic_no_dotdot _ hno with e | e
    · left
      unfold staticFilePath
      rw [e]
    · exact Or.inr e
  · intro hd readFile2
    simp only [ServeStatic, ServeFile, hd, if_true, ErrorPage]
  · intro hout
    have hd : containsDotDot r.URL.Path = true := by
      cases h : containsDotDot r.URL.Path with
      | true => rfl
      | false => exact absurd (staticFilePath_of_no_dotdot r h) hout
    obtain ⟨w4, e4, _, c4⟩ := ErrorPage_fresh world NewRecorder 404 rfl (by decide) (by decide)
    obtain ⟨w5, e5, _, c5⟩ := ErrorPage_fresh world NewRecorder 405 rfl (by decide) (by decide)
    by_cases hm : r.Method = "GET"
    · rw [ServeStatic_get world NewRecorder r hm]
      cases world.stat (staticFilePath r) with
      | none => left; rw [e4]; simp [responseCode, c4]
      | some info =>
        by_cases hdir : info.IsDir = true
        · left; simp only [hdir, if_true]; rw [e4]; simp [responseCode, c4]
        · simp only [hdir]
          cases staticContentType (filepathExt (staticFilePath r)) with
          | none => left; simp only [if_false]; rw [e4]; simp [responseCode, c4]
          | some ct =>
            right; left
            obtain ⟨w2, e2, c2, _⟩ := (ServeFile_fresh world
              { NewRecorder with HeaderMap := HeaderSet NewRecorder.HeaderMap "Content-Type" ct }
              r (staticFilePath r) rfl).1 hd
            simp only [if_false]
            rw [e2]
            simp [responseCode, c2]
    · right; right
      have e : ServeStatic world NewRecorder r = ErrorPage world NewRecorder 405 := by
        simp [ServeStatic, hm]
      rw [e, e5]
      simp [responseCode, c5]

/-! ## The catalog is only read -/

theorem renderTemplateStep_run (world : World) (w : ResponseWriter) (tmpl : String)
    (data : TemplateData) (g : Globals) :
    (renderTemplateStep world w tmpl data).run g = (renderTemplate world g w tmpl data, g) := by
  simp only [renderTemplateStep, readTemplates, renderTemplate, StateT.run, bind, StateT.bind,
    get, getThe, MonadStateOf.get, StateT.get, pure, StateT.pure]
  cases g.templates tmpl with
  | none => rfl
  | some t => by_cases h : (t.Execute w data).2 = true <;> simp [h] <;> rfl

theorem MainPageStep_run (world : World) (w : ResponseWriter) (r : Request) (g : Globals) :
    (MainPageStep world w r).run g = (MainPage world g w r, g) := by
  unfold MainPageStep MainPage
  rcases checkMethodAndPath world w r "GET" "/" with e | ⟨b, w1⟩
  · rfl
  · cases b
    · rfl
    · exact renderTemplateStep_run world w1 _ _ g

theorem SearchPageStep_run (world : World) (w : ResponseWriter) (r : Request) (g : Globals) :
    (SearchPageStep world w r).run g = (SearchPage world g w r, g) := by
  unfold SearchPageStep SearchPage
  rcases checkMethodAndPath world w r "GET" "/search/" with e | ⟨b, w1⟩
  · rfl
  · cases b
    · rfl
    · by_cases hq : ValuesGet r.URL.Query "q" = ""
      · simp only [hq, if_true]
        rfl
      · simp only [hq, if_false]
        exact renderTemplateStep_run world w1 _ _ g

theorem InfoAboutArtistStep_run (world : World) (w : ResponseWriter) (r : Request)
    (g : Globals) :
    (InfoAboutArtistStep world w r).run g = (InfoAboutArtist world g w r, g) := by
  unfold InfoAboutArtistStep InfoAboutArtist
  rcases checkMethodAndPath world w r "GET" "/artists/" with e | ⟨b, w1⟩
  · rfl
  · cases b
    · rfl
    · by_cases hv : (Atoi (ValuesGet r.URL.Query "id")).1 ≤ 0 ∨
          (Atoi (ValuesGet r.URL.Query "id")).1 > (g.artists.length : Int) ∨
          (Atoi (ValuesGet r.URL.Query "id")).2 ≠ none
      · simp [StateT.run, bind, StateT.bind, readArtists, get, getThe, MonadStateOf.get,
          StateT.get, pure, StateT.pure, hv]
      · simp only [StateT.run, bind, StateT.bind, readArtists, get, getThe, MonadStateOf.get,
          StateT.get, pure, StateT.pure, hv, if_false]
        cases hs : sliceIndex g.artists ((Atoi (ValuesGet r.URL.Query "id")).1 - 1) with
        | error e => rfl
        | ok a =>
          simp only
          cases FetchLocations world a.Locations with
          | error e => rfl
          | ok locations =>
            simp only [StateT.bind, StateT.get, StateT.pure, bind, pure, hs]
            cases FetchDates world a.ConcertDates with
            | error e => rfl
            | ok dates =>
              simp only [StateT.bind, StateT.get, StateT.pure, bind, pure, hs]
              cases FetchRelation world a.Relations with
              | error e => rfl
              | ok rel =>
                simp only [StateT.bind, StateT.get, StateT.pure, bind, pure, hs]
                exact renderTemplateStep_run world w1 _ _ g

/-- C14: run as steps on the package-level variables, `MainPage`,
`InfoAboutArtist`, `SearchPage` and `ServeStatic` answer every request, whatever
the outcome, with the response of the handler and leave the package state, and
so the artist list, exactly as it was before the request. -/
theorem C14_catalog_unchanged (world : World) (w : ResponseWriter) (r : Request)
    (g : Globals) :
    ((MainPageStep world w r).run g = (MainPage world g w r, g) ∧
      ((MainPageStep world w r).run g).2.artists = g.artists) ∧
    ((InfoAboutArtistStep world w r).run g = (InfoAboutArtist world g w r, g) ∧
      ((InfoAboutArtistStep world w r).run g).2.artists = g.artists) ∧
    ((SearchPageStep world w r).run g = (SearchPage world g w r, g) ∧
      ((SearchPageStep world w r).run g).2.artists = g.artists) ∧
    ((ServeStaticStep world w r).run g = (ServeStatic world w r, g) ∧
      ((ServeStaticStep world w r).run g).2.artists = g.artists) := by
  have h1 := MainPageStep_run world w r g
  have h2 := InfoAboutArtistStep_run world w r g
  have h3 := SearchPageStep_run world w r g
  have h4 : (ServeStaticStep world w r).run g = (ServeStatic world w r, g) := rfl
  exact ⟨⟨h1, by rw [h1]⟩, ⟨h2, by rw [h2]⟩, ⟨h3, by rw [h3]⟩, ⟨h4, by rw [h4]⟩⟩

/-! ## Refining a search query -/

/-- A query whose lower-cased form contains the lower-cased form of another
matches only names the other matches. -/
theorem Contains_of_infix (world : World) (name q1 q2 : String)
    (h12 : List.IsInfix (ToLower world q1).data (ToLower world q2).data)
    (h2 : Contains (ToLower world name) (ToLower world q2) = true) :
    Contains (ToLower world name) (ToLower world q1) = true := by
  rw [Contains, containsChars_iff] at h2 ⊢
  exact h12.trans h2

/-- C15: for every catalog and all non-empty queries `q1`, `q2` such that the
lower-cased `q1` is a contiguous part of the lower-cased `q2`, the result list
`SearchPage` hands to the search template for `q2` is a sublist, in the same
relative order, of the one for `q1`, and every artist in the former is in the
latter. -/
theorem C15_SearchPage_refine (world : World) (g : Globals) (w : ResponseWriter)
    (r1 r2 : Request) (q1 q2 : String)
    (hm1 : r1.Method = "GET") (hp1 : r1.URL.Path = "/search/")
    (hm2 : r2.Method = "GET") (hp2 : r2.URL.Path = "/search/")
    (hq1 : ValuesGet r1.URL.Query "q" = q1) (hq2 : ValuesGet r2.URL.Query "q" = q2)
    (hne1 : q1 ≠ "") (hne2 : q2 ≠ "")
    (h12 : ∃ pre post, (ToLower world q2).data = pre ++ (ToLower world q1).data ++ post) :
    SearchPage world g w r1 =
      renderTemplate world g w "search.html" (searchData q1 (searchLoop world g.artists q1)) ∧
    SearchPage world g w r2 =
      renderTemplate world g w "search.html" (searchData q2 (searchLoop world g.artists q2)) ∧
    List.Sublist (searchData q2 (searchLoop world g.artists q2)).Results
      (searchData q1 (searchLoop world g.artists q1)).Results ∧
    (∀ a, a ∈ (searchData q2 (searchLoop world g.artists q2)).Results →
      a ∈ (searchData q1 (searchLoop world g.artists q1)).Results) := by
  subst hq1 hq2
  have hinf : List.IsInfix (ToLower world (ValuesGet r1.URL.Query "q")).data
      (ToLower world (ValuesGet r2.URL.Query "q")).data := by
    obtain ⟨pre, post, h⟩ := h12
    exact ⟨pre, post, h.symm⟩
  have hsub : List.Sublist (searchLoop world g.artists (ValuesGet r2.URL.Query "q"))
      (searchLoop world g.artists (ValuesGet r1.URL.Query "q")) := by
    rw [searchLoop_eq_filter, searchLoop_eq_filter]
    exact List.monotone_filter_right g.artists
      (fun a h => Contains_of_infix world a.Name _ _ hinf h)
  rw [(searchData_Results _ _).1, (searchData_Results _ _).1]
  exact ⟨SearchPage_query world g w r1 hm1 hp1 hne1, SearchPage_query world g w r2 hm2 hp2 hne2,
    hsub, fun a ha => hsub.subset ha⟩

/-- C15 at the test catalog: the results for "test art" are among the results for "art". -/
theorem C15_SearchPage_refine_witness :
    (getRequest "/search/" [("q", "art")]).Method = "GET" ∧
    (getRequest "/search/" [("q", "art")]).URL.Path = "/search/" ∧
    ValuesGet (getRequest "/search/" [("q", "art")]).URL.Query "q" = "art" ∧
    ValuesGet (getRequest "/search/" [("q", "test art")]).URL.Query "q" = "test art" ∧
    "art" ≠ "" ∧ "test art" ≠ "" ∧
    (ToLower testWorld "test art").data =
      "test ".data ++ (ToLower testWorld "art").data ++ [] ∧
    List.Sublist (searchData "test art" (searchLoop testWorld testGlobals.artists "test art")).Results
      (searchData "art" (searchLoop testWorld testGlobals.artists "art")).Results :=
  ⟨by decide, by decide, by decide, by decide, by decide, by decide, by decide,
    (C15_SearchPage_refine testWorld testGlobals NewRecorder
      (getRequest "/search/" [("q", "art")]) (getRequest "/search/" [("q", "test art")])
      "art" "test art" (by decide) (by decide) (by decide) (by decide) (by decide) (by decide)
      (by decide) (by decide) ⟨"test ".data, [], by decide⟩).2.2.1⟩

end GroupieTracker
